import Mathlib

/-!
Verification development for the Citus single-shard router planner
(`src/backend/distributed/planner/multi_router_planner.c`).

The definitions below are a shallow embedding of the planner's data model
and algorithms.  External collaborators that live outside this file's
source (the PostgreSQL catalog, `PruneShards`, `FindShardInterval`,
`predicate_implied_by`, `UpdateRelationToShardNames`,
`FinalizedShardPlacementList`, `RequiresMasterEvaluation`, ...) are
represented either as oracle parameters or as definitions modelled from
the specification, and each such definition says so in its doc comment.
-/

set_option maxHeartbeats 1000000
set_option maxRecDepth 8192

namespace RouterPlanner

/-- Command type of a statement (`CmdType` in the source). -/
inductive CmdType where
  | select
  | insert
  | update
  | delete
deriving DecidableEq, Repr

/-- Partition method of a distributed table (`DISTRIBUTE_BY_*` in the source);
`noneMethod` is `DISTRIBUTE_BY_NONE`, the reference-table method. -/
inductive PartitionMethod where
  | hash
  | range
  | append
  | noneMethod
deriving DecidableEq, Repr

/-- Volatility classification of a function (`PROVOLATILE_*`). -/
inductive Volatility where
  | immutable
  | stable
  | volatileV
deriving DecidableEq, Repr

/-- Expression trees, the node shapes the planner's walkers distinguish:
`varE` a column reference (`Var`), `constE` a literal (`Const`, carrying the
value and the null flag), `funcE` a function or operator invocation carrying
the volatility of its function, `coalesceE` a `COALESCE`, `caseE` a `CASE`,
and `nodeE` any other node that merely holds children. -/
inductive PgExpr where
  | varE (varattno : Nat)
  | constE (constvalue : Int) (constisnull : Bool)
  | funcE (volatility : Volatility) (args : List PgExpr)
  | coalesceE (args : List PgExpr)
  | caseE (args : List PgExpr)
  | nodeE (args : List PgExpr)
deriving Repr

mutual

/-- `contain_volatile_functions` (PostgreSQL, external collaborator): the
tree contains a function whose volatility class is VOLATILE. -/
def contain_volatile_functions : PgExpr → Bool
  | .varE _ => false
  | .constE _ _ => false
  | .funcE v args => (v = .volatileV) || contain_volatile_list args
  | .coalesceE args => contain_volatile_list args
  | .caseE args => contain_volatile_list args
  | .nodeE args => contain_volatile_list args

/-- `contain_volatile_functions` over a list of children. -/
def contain_volatile_list : List PgExpr → Bool
  | [] => false
  | e :: es => contain_volatile_functions e || contain_volatile_list es

end

mutual

/-- `contain_mutable_functions` (PostgreSQL, external collaborator): the
tree contains a function whose volatility class is not IMMUTABLE. -/
def contain_mutable_functions : PgExpr → Bool
  | .varE _ => false
  | .constE _ _ => false
  | .funcE v args => (v ≠ .immutable) || contain_mutable_list args
  | .coalesceE args => contain_mutable_list args
  | .caseE args => contain_mutable_list args
  | .nodeE args => contain_mutable_list args

/-- `contain_mutable_functions` over a list of children. -/
def contain_mutable_list : List PgExpr → Bool
  | [] => false
  | e :: es => contain_mutable_functions e || contain_mutable_list es

end

/-- `contain_volatile_functions` applied to a possibly-NULL node pointer. -/
def contain_volatile_opt : Option PgExpr → Bool
  | none => false
  | some e => contain_volatile_functions e

/-- `contain_mutable_functions` applied to a possibly-NULL node pointer. -/
def contain_mutable_opt : Option PgExpr → Bool
  | none => false
  | some e => contain_mutable_functions e

/-- The in/out flags of `MasterIrreducibleExpressionWalker`
(`WalkerState` in the source). -/
structure WalkerState where
  containsVar : Bool
  varArgument : Bool
  badCoalesce : Bool
deriving DecidableEq, Repr

mutual

/-- `MasterIrreducibleExpressionWalker`: the C walker threads a mutable
`WalkerState`; here the state is passed and returned explicitly.  The first
component of the result is the walker's boolean return value (true means
the walk stopped on a disallowed construct), the second is the updated
state.  A COALESCE/CASE with mutable functions sets `badCoalesce` and stops;
a `Var` sets `containsVar`; a node whose own functions aggregate to STABLE
walks its children with a fresh child state and folds the child findings
into `varArgument`/`badCoalesce`; every other node keeps traversing with
the same state (`expression_tree_walker` semantics, short-circuiting on the
first child that returns true). -/
def MasterIrreducibleExpressionWalker : PgExpr → WalkerState → Bool × WalkerState
  | .coalesceE args, s =>
    if contain_mutable_list args then (true, { s with badCoalesce := true })
    else (false, s)
  | .caseE args, s =>
    if contain_mutable_list args then (true, { s with badCoalesce := true })
    else (false, s)
  | .varE _, s => (false, { s with containsVar := true })
  | .constE _ _, s => (false, s)
  | .funcE vol args, s =>
    if vol = .stable then
      let r := MasterIrreducibleExpressionWalkerList args ⟨false, false, false⟩
      (r.1 || r.2.containsVar,
        { containsVar := s.containsVar,
          varArgument := (s.varArgument || r.2.containsVar) || r.2.varArgument,
          badCoalesce := s.badCoalesce || r.2.badCoalesce })
    else
      MasterIrreducibleExpressionWalkerList args s
  | .nodeE args, s => MasterIrreducibleExpressionWalkerList args s

/-- `expression_tree_walker` over the children, short-circuiting at the
first child on which the walker returns true. -/
def MasterIrreducibleExpressionWalkerList : List PgExpr → WalkerState → Bool × WalkerState
  | [], s => (false, s)
  | e :: es, s =>
    match MasterIrreducibleExpressionWalker e s with
    | (true, s1) => (true, s1)
    | (false, s1) => MasterIrreducibleExpressionWalkerList es s1

end

/-- `MasterIrreducibleExpression`: runs the walker on a fresh state and ORs
the walk's `varArgument`/`badCoalesce` findings into the caller's flags.
Result: (walker result, updated varArgument, updated badCoalesce). -/
def MasterIrreducibleExpression (expression : PgExpr) (varArgument badCoalesce : Bool) :
    Bool × Bool × Bool :=
  let r := MasterIrreducibleExpressionWalker expression ⟨false, false, false⟩
  (r.1, varArgument || r.2.varArgument, badCoalesce || r.2.badCoalesce)

/-- Kind of a range table entry (`RTEKind`). -/
inductive RTEKind where
  | relation
  | subquery
  | join
  | functionScan
  | valuesScan
  | cteScan
deriving DecidableEq, Repr

/-- Relation kind of a base relation (`relkind`): ordinary table or view. -/
inductive RelKind where
  | ordinaryTable
  | view
deriving DecidableEq, Repr

/-- One range table entry (`RangeTblEntry`), with the fields the router
planner reads: its kind, the referenced relation, the relation kind, and
the required-permission bits used by `UpdateOrDeleteRTE`. -/
structure RangeTblEntryM where
  rtekind : RTEKind
  relid : Nat
  relkind : RelKind
  requiredPermsUpdate : Bool
  requiredPermsDelete : Bool
deriving DecidableEq, Repr

/-- Read-only distribution metadata oracle (the external catalog):
whether a relation is distributed, its partition method, its partition
column attribute number (`PartitionColumn`, absent for reference tables),
and the user-facing partition column name (`ColumnNameToColumn`). -/
structure Catalog where
  isDistributedTable : Nat → Bool
  partitionMethod : Nat → PartitionMethod
  partitionColumn : Nat → Option Nat
  partitionColumnName : Nat → String

/-- One entry of a statement's target list (`TargetEntry`). -/
structure TargetEntryM where
  resno : Nat
  resjunk : Bool
  expr : PgExpr
deriving Repr

/-- The ON CONFLICT clause of an INSERT (`OnConflictExpr`). -/
structure OnConflictM where
  onConflictSet : List TargetEntryM
  arbiterWhere : Option PgExpr
  onConflictWhere : Option PgExpr
deriving Repr

/-- A parsed statement (`Query`), restricted to the fields the router
planner reads.  `rtable` is the flattened range table list as produced by
`ExtractRangeTableEntryWalker`.  `whereQuals` is the join tree's qualifier
expression.  `whereEqualities` models the equality facts `col = const` the
WHERE clause establishes; it stands in for the external
`predicate_implied_by` oracle (see `TargetEntryChangesValue`). -/
structure QueryM where
  commandType : CmdType
  hasSubLinks : Bool
  cteList : List CmdType
  rtable : List RangeTblEntryM
  targetList : List TargetEntryM
  whereQuals : Option PgExpr
  whereEqualities : List (Nat × Int)
  returningList : List PgExpr
  onConflict : Option OnConflictM
  hasForUpdate : Bool
deriving Repr

/-- A shard of a distributed table (`ShardInterval`): owning relation,
shard identifier and range boundaries. -/
structure ShardInterval where
  relationId : Nat
  shardId : Nat
  minValue : Int
  maxValue : Int
deriving DecidableEq, Repr

/-- One replica location of a shard (`ShardPlacement`). -/
structure ShardPlacement where
  nodeName : String
  nodePort : Nat
  groupId : Nat
deriving DecidableEq, Repr

/-- An active worker node (`WorkerNode`). -/
structure WorkerNode where
  workerName : String
  workerPort : Nat
  groupId : Nat
deriving DecidableEq, Repr

/-- A relation-to-shard mapping entry (`RelationShard`). -/
structure RelationShard where
  relationId : Nat
  shardId : Nat
deriving DecidableEq, Repr

/-- A structured, non-fatal planning diagnosis (`DeferredErrorMessage`):
primary message, optional detail, optional hint. -/
structure DeferredErrorMessage where
  message : String
  detail : Option String
  hint : Option String
deriving DecidableEq, Repr

/-- `DeferredError` constructor helper used throughout the planner. -/
def DeferredError (message : String) (detail hint : Option String) : DeferredErrorMessage :=
  ⟨message, detail, hint⟩

/-- One relation restriction (`RelationRestriction`): the relation, its
range table index, the shard count of its cache entry, whether the
accumulated pseudo-constant restrictions contain a literal `false` clause
(the result of the external `ContainsFalseClause` on
`relOptInfo->joininfo`), the result of the external `PruneShards` call for
this relation's filters, and the relation's range table entry. -/
structure RelationRestriction where
  relationId : Nat
  index : Nat
  shardCount : Nat
  containsFalseClause : Bool
  prunedShardIntervalList : List ShardInterval
  rte : RangeTblEntryM
deriving Repr

/-- `MultiRouterPlannableQuery`: INSERT/UPDATE/DELETE are always router
plannable; a SELECT is router plannable unless router execution is
disabled, the statement has FOR UPDATE, or some relation range table entry
has a partition method other than HASH, RANGE or NONE.  A pure predicate:
it only reads its arguments. -/
def MultiRouterPlannableQuery (q : QueryM) (restrictions : List RelationRestriction)
    (enableRouterExecution : Bool) (cat : Catalog) : Bool :=
  if q.commandType = .insert ∨ q.commandType = .update ∨ q.commandType = .delete then
    true
  else if !enableRouterExecution then
    false
  else if q.hasForUpdate then
    false
  else
    restrictions.all fun rr =>
      if rr.rte.rtekind = .relation then
        decide (cat.partitionMethod rr.rte.relid = .hash ∨
          cat.partitionMethod rr.rte.relid = .noneMethod ∨
          cat.partitionMethod rr.rte.relid = .range)
      else
        true

/-- `UpdateOrDeleteQuery`: the statement is an UPDATE or DELETE. -/
def UpdateOrDeleteQuery (q : QueryM) : Bool :=
  decide (q.commandType = .update ∨ q.commandType = .delete)

/-- `ExtractFirstDistributedTableId`: relation id of the first distributed
table among the extracted range table entries, `InvalidOid` (0) if none. -/
def ExtractFirstDistributedTableId (cat : Catalog) (q : QueryM) : Nat :=
  match q.rtable.find? (fun rte => cat.isDistributedTable rte.relid) with
  | some rte => rte.relid
  | none => 0

/-- `TargetEntryChangesValue`: a SET-list entry changes the given column's
value unless it sets a different column, assigns the column to itself, or
assigns a constant the join tree's qualifiers already imply equal.
`whereEqualities` models the external `predicate_implied_by` oracle
(PostgreSQL optimizer, not part of this source file) by the narrowing the
spec's design notes sanction: the equality `col = const` is implied exactly
when the WHERE clause carries that literal equality fact. -/
def TargetEntryChangesValue (targetEntry : TargetEntryM) (columnAttno : Nat)
    (whereEqualities : List (Nat × Int)) : Bool :=
  if targetEntry.resno ≠ columnAttno then
    false
  else
    match targetEntry.expr with
    | .varE newValueAttno => decide (newValueAttno ≠ columnAttno)
    | .constE v isNull =>
      if isNull = false ∧ (columnAttno, v) ∈ whereEqualities then false else true
    | _ => true

/-- Rejection for subqueries in a modification. -/
def subqueryModifyError : DeferredErrorMessage :=
  DeferredError "cannot perform distributed planning for the given modifications"
    (some "Subqueries are not supported in distributed modifications.") none

/-- Rejection for common table expressions in a modification. -/
def cteModifyError : DeferredErrorMessage :=
  DeferredError "common table expressions are not supported in distributed modifications"
    none none

/-- Rejection for modifying a reference table away from the coordinator. -/
def referenceTableCoordinatorError : DeferredErrorMessage :=
  DeferredError "cannot perform distributed planning for the given modification"
    (some "Modifications to reference tables are supported only from the coordinator.") none

/-- Rejection for modifying a view. -/
def viewModifyError : DeferredErrorMessage :=
  DeferredError "cannot modify views over distributed tables" none none

/-- Rejection for an unsupported range table entry kind, with the detail
text the source picks per kind. -/
def unsupportedRangeTableError (kind : RTEKind) : DeferredErrorMessage :=
  let detailText :=
    match kind with
    | .subquery => "Subqueries are not supported in distributed modifications."
    | .join => "Joins are not supported in distributed modifications."
    | .functionScan => "Functions must not appear in the FROM clause of a distributed modifications."
    | _ => "Unrecognized range table entry."
  DeferredError "cannot perform distributed planning for the given modifications"
    (some detailText) none

/-- Rejection for joins in a modification. -/
def joinModifyError : DeferredErrorMessage :=
  DeferredError "cannot perform distributed planning for the given modification"
    (some "Joins are not supported in distributed modifications.") none

/-- Rejection for multi-row INSERT (a VALUES scan). -/
def multiRowInsertError : DeferredErrorMessage :=
  DeferredError "cannot perform distributed planning for the given modification"
    (some "Multi-row INSERTs to distributed tables are not supported.") none

/-- Rejection for a VOLATILE function in an UPDATE's target list. -/
def updateSetVolatileError : DeferredErrorMessage :=
  DeferredError "functions used in UPDATE queries on distributed tables must not be VOLATILE"
    none none

/-- Rejection for a VOLATILE function in a modification's WHERE clause. -/
def whereVolatileError : DeferredErrorMessage :=
  DeferredError
    "functions used in the WHERE clause of modification queries on distributed tables must not be VOLATILE"
    none none

/-- Rejection for a STABLE function applied to a column reference. -/
def stableVarArgumentError : DeferredErrorMessage :=
  DeferredError "STABLE functions used in UPDATE queries cannot be called with column references"
    none none

/-- Rejection for a non-IMMUTABLE function inside CASE/COALESCE. -/
def badCoalesceError : DeferredErrorMessage :=
  DeferredError "non-IMMUTABLE functions are not allowed in CASE or COALESCE statements"
    none none

/-- Rejection for a non-IMMUTABLE function in the RETURNING list. -/
def returningMutableError : DeferredErrorMessage :=
  DeferredError "non-IMMUTABLE functions are not allowed in the RETURNING clause" none none

/-- Rejection for a non-IMMUTABLE function in the DO UPDATE SET list. -/
def conflictSetMutableError : DeferredErrorMessage :=
  DeferredError
    "functions used in the DO UPDATE SET clause of INSERTs on distributed tables must be marked IMMUTABLE"
    none none

/-- Rejection for a non-IMMUTABLE function in the ON CONFLICT arbiter or
filter predicate. -/
def conflictWhereMutableError : DeferredErrorMessage :=
  DeferredError
    "functions used in the WHERE clause of the ON CONFLICT clause of INSERTs on distributed tables must be marked IMMUTABLE"
    none none

/-- Rejection for changing a row's partition column value. -/
def partitionValueError : DeferredErrorMessage :=
  DeferredError "modifying the partition value of rows is not allowed" none none

/-- The range-table loop of `ModifyQuerySupported`: walks the extracted
range table entries accumulating `queryTableCount` and `hasValuesScan`,
returning the first rejection encountered. -/
def ScanRangeTableList (cat : Catalog) (isCoordinator updOrDel multiShardQuery : Bool) :
    List RangeTblEntryM → Nat → Bool → Except DeferredErrorMessage (Nat × Bool)
  | [], queryTableCount, hasValuesScan => .ok (queryTableCount, hasValuesScan)
  | rte :: rest, queryTableCount, hasValuesScan =>
    match rte.rtekind with
    | .relation =>
      if cat.partitionMethod rte.relid = .noneMethod ∧ isCoordinator = false then
        .error referenceTableCoordinatorError
      else if rte.relkind = .view then
        .error viewModifyError
      else
        ScanRangeTableList cat isCoordinator updOrDel multiShardQuery rest
          (queryTableCount + 1) hasValuesScan
    | .valuesScan =>
      ScanRangeTableList cat isCoordinator updOrDel multiShardQuery rest queryTableCount true
    | k =>
      if updOrDel ∧ multiShardQuery = false then
        ScanRangeTableList cat isCoordinator updOrDel multiShardQuery rest
          queryTableCount hasValuesScan
      else
        .error (unsupportedRangeTableError k)

/-- The target-list loop of `ModifyQuerySupported`: threads
(`specifiesPartitionValue`, `hasVarArgument`, `hasBadCoalesce`) through the
entries, skipping resjunk entries, rejecting VOLATILE functions in UPDATE
SET expressions, recording partition-column mutation, and folding the
expression analyzer's findings. -/
def CheckTargetList (cmd : CmdType) (partitionColumn : Option Nat)
    (whereEqualities : List (Nat × Int)) :
    List TargetEntryM → Bool → Bool → Bool → Except DeferredErrorMessage (Bool × Bool × Bool)
  | [], spv, hva, hbc => .ok (spv, hva, hbc)
  | te :: rest, spv, hva, hbc =>
    if te.resjunk then
      CheckTargetList cmd partitionColumn whereEqualities rest spv hva hbc
    else if cmd = .update ∧ contain_volatile_functions te.expr then
      .error updateSetVolatileError
    else
      let spv1 :=
        match partitionColumn with
        | none => spv
        | some a =>
          if cmd = .update ∧ te.resno = a ∧ TargetEntryChangesValue te a whereEqualities then
            true
          else
            spv
      if cmd = .update then
        let m := MasterIrreducibleExpression te.expr hva hbc
        CheckTargetList cmd partitionColumn whereEqualities rest spv1 m.2.1 m.2.2
      else
        CheckTargetList cmd partitionColumn whereEqualities rest spv1 hva hbc

/-- Tail of the DML block of `ModifyQuerySupported`: the accumulated
`hasVarArgument`/`hasBadCoalesce` rejections and the RETURNING check. -/
def DmlChecksTail (q : QueryM) (spv hva hbc : Bool) : Except DeferredErrorMessage Bool :=
  if hva then .error stableVarArgumentError
  else if hbc then .error badCoalesceError
  else if contain_mutable_list q.returningList then .error returningMutableError
  else .ok spv

/-- The WHERE-clause checks of the DML block: reject a VOLATILE function
in the join tree's qualifiers, fold the expression analyzer's findings on
them, then run the tail checks. -/
def DmlWhereChecks (q : QueryM) (spv hva hbc : Bool) : Except DeferredErrorMessage Bool :=
  match q.whereQuals with
  | some quals =>
    if contain_volatile_functions quals then
      .error whereVolatileError
    else
      DmlChecksTail q spv (MasterIrreducibleExpression quals hva hbc).2.1
        (MasterIrreducibleExpression quals hva hbc).2.2
  | none => DmlChecksTail q spv hva hbc

/-- The `commandType ∈ (INSERT, UPDATE, DELETE)` block of
`ModifyQuerySupported`: target-list loop, then the WHERE-clause and tail
checks.  Returns the `specifiesPartitionValue` flag on success. -/
def DmlChecks (q : QueryM) (partitionColumn : Option Nat) : Except DeferredErrorMessage Bool :=
  if q.commandType = .insert ∨ q.commandType = .update ∨ q.commandType = .delete then
    match CheckTargetList q.commandType partitionColumn q.whereEqualities q.targetList
        false false false with
    | .error e => .error e
    | .ok (spv, hva, hbc) => DmlWhereChecks q spv hva hbc
  else
    .ok false

/-- The ON CONFLICT SET loop of `ModifyQuerySupported`: a partition-column
entry assigning the column to itself clears `specifiesPartitionValue`, any
other partition-column assignment sets it; non-partition entries must be
plain column references or free of mutable functions. -/
def CheckOnConflictSet (partitionColumn : Option Nat) :
    List TargetEntryM → Bool → Except DeferredErrorMessage Bool
  | [], spv => .ok spv
  | te :: rest, spv =>
    match partitionColumn with
    | some a =>
      if te.resno = a then
        match te.expr with
        | .varE newValueAttno =>
          if newValueAttno = a then CheckOnConflictSet partitionColumn rest false
          else CheckOnConflictSet partitionColumn rest true
        | _ => CheckOnConflictSet partitionColumn rest true
      else
        match te.expr with
        | .varE _ => CheckOnConflictSet partitionColumn rest spv
        | e =>
          if contain_mutable_functions e then .error conflictSetMutableError
          else CheckOnConflictSet partitionColumn rest spv
    | none =>
      match te.expr with
      | .varE _ => CheckOnConflictSet partitionColumn rest spv
      | e =>
        if contain_mutable_functions e then .error conflictSetMutableError
        else CheckOnConflictSet partitionColumn rest spv

/-- The ON CONFLICT block of `ModifyQuerySupported` (the conflict fields
are empty/NULL unless the statement is an INSERT with a conflict clause),
followed by the final `specifiesPartitionValue` rejection. -/
def OnConflictChecks (queryTree : QueryM) (partitionColumn : Option Nat)
    (specifiesPartitionValue : Bool) : Option DeferredErrorMessage :=
  let oc := if queryTree.commandType = .insert then queryTree.onConflict else none
  let onConflictSet := match oc with | some c => c.onConflictSet | none => []
  let arbiterWhere := match oc with | some c => c.arbiterWhere | none => none
  let onConflictWhere := match oc with | some c => c.onConflictWhere | none => none
  match CheckOnConflictSet partitionColumn onConflictSet specifiesPartitionValue with
  | .error e => some e
  | .ok spv =>
    if contain_mutable_opt arbiterWhere || contain_mutable_opt onConflictWhere then
      some conflictWhereMutableError
    else if spv then
      some partitionValueError
    else
      none

/-- `ModifyQuerySupported`: returns `none` when the modification only uses
supported features, otherwise the first rejection's `DeferredErrorMessage`,
in the source's check order. -/
def ModifyQuerySupported (queryTree : QueryM) (multiShardQuery : Bool) (cat : Catalog)
    (isCoordinator : Bool) : Option DeferredErrorMessage :=
  if queryTree.hasSubLinks ∧ (UpdateOrDeleteQuery queryTree = false ∨ multiShardQuery) then
    some subqueryModifyError
  else if queryTree.cteList ≠ [] then
    some cteModifyError
  else
    match ScanRangeTableList cat isCoordinator (UpdateOrDeleteQuery queryTree)
        multiShardQuery queryTree.rtable 0 false with
    | .error e => some e
    | .ok (queryTableCount, hasValuesScan) =>
      if (queryTree.commandType ≠ .insert ∧ queryTableCount ≠ 1) ∧
          (UpdateOrDeleteQuery queryTree = false ∨ multiShardQuery) then
        some joinModifyError
      else if hasValuesScan then
        some multiRowInsertError
      else
        match DmlChecks queryTree
            (cat.partitionColumn (ExtractFirstDistributedTableId cat queryTree)) with
        | .error e => some e
        | .ok specifiesPartitionValue =>
          OnConflictChecks queryTree
            (cat.partitionColumn (ExtractFirstDistributedTableId cat queryTree))
            specifiesPartitionValue

/-- Task type: a read (`ROUTER_TASK`) or a write (`MODIFY_TASK`). -/
inductive TaskType where
  | routerTask
  | modifyTask
deriving DecidableEq, Repr

/-- A `Task`, with the fields the router planner fills: kind, anchor
shard, candidate placement list, relation-to-shard mapping and the
upsert flag. -/
structure Task where
  taskType : TaskType
  anchorShardId : Option Nat
  taskPlacementList : List ShardPlacement
  relationShardList : List RelationShard
  upsertQuery : Bool
deriving DecidableEq, Repr

/-- A `Job`: the task list plus the `requiresMasterEvaluation` and
`deferredPruning` flags. -/
structure Job where
  taskList : List Task
  requiresMasterEvaluation : Bool
  deferredPruning : Bool
deriving DecidableEq, Repr

/-- Distribution metadata of one table (`DistTableCacheEntry`). -/
structure DistTableCacheEntry where
  relationId : Nat
  partitionMethod : PartitionMethod
  sortedShardIntervalArray : List ShardInterval
  partitionColumnAttno : Option Nat
  partitionColumnName : String
deriving Repr

/-- Result of `FindShardForInsert`: a shard, a recoverable
`DeferredErrorMessage`, or a fatal `ereport(ERROR, ...)` abort. -/
inductive InsertShardResult where
  | found (shardInterval : ShardInterval)
  | deferredErr (e : DeferredErrorMessage)
  | fatal (msg : String)
deriving DecidableEq, Repr

/-- Result of `RouterInsertTaskList`. -/
inductive TaskListResult where
  | ok (tasks : List Task)
  | deferred (e : DeferredErrorMessage)
  | fatal (msg : String)
deriving DecidableEq, Repr

/-- Result of a job-building planner entry point: a `Job`, a recoverable
`DeferredErrorMessage`, or a fatal abort. -/
inductive RouterResult where
  | ok (job : Job)
  | deferred (e : DeferredErrorMessage)
  | fatal (msg : String)
deriving DecidableEq, Repr

/-- Modelled from the spec: `FindShardInterval` (shardinterval_utils.c, not
under src/) locates for a HASH or RANGE distributed table "the unique
interval with min ≤ v ≤ max" via boundary search over the sorted shard
interval array; `none` when no interval contains the value. -/
def FindShardInterval (value : Int) (entry : DistTableCacheEntry) : Option ShardInterval :=
  entry.sortedShardIntervalArray.find? fun si =>
    decide (si.minValue ≤ value ∧ value ≤ si.maxValue)

/-- `ExtractInsertPartitionValue` (named `ExtractPartitionValue` in its
comment): the target-list expression feeding the partition column, found by
`get_tle_by_resno`; missing value is a fatal error. -/
def ExtractInsertPartitionValue (q : QueryM) (partitionColumnAttno : Nat) :
    Except String PgExpr :=
  match q.targetList.find? (fun te => decide (te.resno = partitionColumnAttno)) with
  | none => .error "cannot perform an INSERT without a partition column value"
  | some te => .ok te.expr

/-- `CanShardPrune`: an INSERT is prunable when the partition column value
is a constant (always prunable for non-INSERTs and reference tables). -/
def CanShardPrune (entry : DistTableCacheEntry) (q : QueryM) : Except String Bool :=
  if q.commandType ≠ .insert then
    .ok true
  else
    match entry.partitionColumnAttno with
    | none => .ok true
    | some attno =>
      match ExtractInsertPartitionValue q attno with
      | .error m => .error m
      | .ok (.constE _ _) => .ok true
      | .ok _ => .ok false

/-- Rejection for an INSERT whose partition value prunes to no shard. -/
def insertZeroShardsError : DeferredErrorMessage :=
  DeferredError "cannot run INSERT command which targets no shards" none
    (some "Make sure you have created a shard which can receive this partition column value.")

/-- Rejection for an INSERT whose partition value prunes to multiple
shards; the hint names the partition column. -/
def insertMultipleShardsError (partitionColumnName : String) : DeferredErrorMessage :=
  DeferredError "cannot run INSERT command which targets multiple shards" none
    (some ("Make sure the value for partition column \"" ++ partitionColumnName ++
      "\" falls into a single shard."))

/-- `FindShardForInsert`: resolve the one shard receiving an INSERT.  A
reference table resolves to its single shard (any other shard count is a
fatal catalog error); a NULL or non-constant partition value is a fatal
error; HASH/RANGE use `FindShardInterval`; APPEND delegates to the
external `PruneShards` on an equality clause, modelled by the
`pruneShardsEq` oracle.  Zero or multiple candidates yield a
`DeferredErrorMessage`. -/
def FindShardForInsert (q : QueryM) (entry : DistTableCacheEntry)
    (pruneShardsEq : Int → List ShardInterval) : InsertShardResult :=
  if entry.partitionMethod = .noneMethod then
    match entry.sortedShardIntervalArray with
    | [si] => .found si
    | l => .fatal ("reference table cannot have " ++ toString l.length ++ " shards")
  else
    match entry.partitionColumnAttno with
    | none => .fatal "distributed table has no partition column"
    | some attno =>
      match ExtractInsertPartitionValue q attno with
      | .error m => .fatal m
      | .ok e =>
        match e with
        | .constE v isNull =>
          if isNull then
            .fatal "cannot perform an INSERT with NULL in the partition column"
          else
            let prunedShardList :=
              if entry.partitionMethod = .hash ∨ entry.partitionMethod = .range then
                match FindShardInterval v entry with
                | some si => [si]
                | none => []
              else
                pruneShardsEq v
            match prunedShardList with
            | [si] => .found si
            | [] => .deferredErr insertZeroShardsError
            | _ => .deferredErr (insertMultipleShardsError entry.partitionColumnName)
        | _ => .fatal "cannot perform an INSERT with a non-constant in the partition column"

/-- `RouterInsertTaskList`: fatal if the table has no shards
(`ErrorIfNoShardsExist`), else one `MODIFY_TASK` anchored at the resolved
shard, with `upsertQuery` set when the INSERT has an ON CONFLICT clause. -/
def RouterInsertTaskList (q : QueryM) (entry : DistTableCacheEntry)
    (pruneShardsEq : Int → List ShardInterval) : TaskListResult :=
  if entry.sortedShardIntervalArray.length = 0 then
    .fatal "could not find any shards"
  else
    match FindShardForInsert q entry pruneShardsEq with
    | .deferredErr e => .deferred e
    | .fatal m => .fatal m
    | .found si =>
      .ok [⟨.modifyTask, some si.shardId, [], [], q.onConflict.isSome⟩]

/-- `RouterInsertJob`: with a non-constant partition value the job carries
an empty task list, `deferredPruning = true` and
`requiresMasterEvaluation = true`; otherwise the task list is built now and
`requiresMasterEvaluation` comes from the external
`RequiresMasterEvaluation(originalQuery)`, passed as the
`requiresMasterEvaluation` oracle argument. -/
def RouterInsertJob (q : QueryM) (entry : DistTableCacheEntry)
    (pruneShardsEq : Int → List ShardInterval) (requiresMasterEvaluation : Bool) :
    RouterResult :=
  match CanShardPrune entry q with
  | .error m => .fatal m
  | .ok canPrune =>
    if canPrune = false then
      .ok ⟨[], true, true⟩
    else
      match RouterInsertTaskList q entry pruneShardsEq with
      | .deferred e => .deferred e
      | .fatal m => .fatal m
      | .ok tasks => .ok ⟨tasks, requiresMasterEvaluation, false⟩

/-- One relation's pruning inside `TargetShardIntervalsForRouter`: a
relation with a literal-false restriction or no shards keeps the empty
list; otherwise the external `PruneShards` result recorded in the
restriction. -/
def PrunedForRestriction (rr : RelationRestriction) : List ShardInterval :=
  if rr.containsFalseClause = false ∧ rr.shardCount ≠ 0 then
    rr.prunedShardIntervalList
  else []

/-- `TargetShardIntervalsForRouter`: per-relation shard pruning.  `none`
models the bail-out that sets `multiShardQuery` and returns NIL as soon as
one relation keeps more than one shard after pruning. -/
def TargetShardIntervalsForRouter :
    List RelationRestriction → Option (List (List ShardInterval))
  | [] => some []
  | rr :: rest =>
    if (PrunedForRestriction rr).length > 1 then
      none
    else
      match TargetShardIntervalsForRouter rest with
      | none => none
      | some ls => some (PrunedForRestriction rr :: ls)

/-- Linear order used by `CompareRelationShards` (multi_physical_planner.c,
external): relation id as primary key, shard id as tie-breaker. -/
def CompareRelationShardsLe (a b : RelationShard) : Prop :=
  a.relationId < b.relationId ∨ (a.relationId = b.relationId ∧ a.shardId ≤ b.shardId)

instance : DecidableRel CompareRelationShardsLe := fun a b => by
  unfold CompareRelationShardsLe
  infer_instance

instance : IsTotal RelationShard CompareRelationShardsLe :=
  ⟨fun a b => by
    unfold CompareRelationShardsLe
    omega⟩

instance : IsTrans RelationShard CompareRelationShardsLe :=
  ⟨fun a b c hab hbc => by
    unfold CompareRelationShardsLe at hab hbc ⊢
    omega⟩

/-- `SortList(relationShardList, CompareRelationShards)` (listutils.c,
external): sort the relation-shard mappings. -/
def SortRelationShardList (l : List RelationShard) : List RelationShard :=
  List.insertionSort CompareRelationShardsLe l

/-- The adjacent-pair scan inside `RelationPrunesToMultipleShards`. -/
def AdjacentShardConflict : List RelationShard → Bool
  | a :: b :: rest =>
    (decide (a.relationId = b.relationId) && decide (a.shardId ≠ b.shardId)) ||
      AdjacentShardConflict (b :: rest)
  | _ => false

/-- `RelationPrunesToMultipleShards`: after sorting, two mappings with the
same relation but different shards sit next to each other. -/
def RelationPrunesToMultipleShards (relationShardList : List RelationShard) : Bool :=
  AdjacentShardConflict (SortRelationShardList relationShardList)

/-- `IntersectPlacementList`: keep each right-hand placement matching a
left-hand placement on (nodeName, nodePort), in left-hand order. -/
def IntersectPlacementList (lhsPlacementList rhsPlacementList : List ShardPlacement) :
    List ShardPlacement :=
  lhsPlacementList.flatMap fun lhs =>
    rhsPlacementList.filter fun rhs =>
      decide (rhs.nodePort = lhs.nodePort) && decide (rhs.nodeName = lhs.nodeName)

/-- The loop of `WorkersContainingAllShards`: `finalizedPlacements` is the
external `FinalizedShardPlacementList` (the active placements of a shard);
empty pruned lists are skipped, the first shard seeds the running list,
later shards intersect into it, and the loop breaks early (returning the
empty list) as soon as the running list empties. -/
def WorkersContainingAllShardsGo (finalizedPlacements : Nat → List ShardPlacement) :
    List (List ShardInterval) → Bool → List ShardPlacement → List ShardPlacement
  | [], _, currentPlacementList => currentPlacementList
  | shardIntervalList :: rest, firstShard, currentPlacementList =>
    match shardIntervalList with
    | [] => WorkersContainingAllShardsGo finalizedPlacements rest firstShard currentPlacementList
    | si :: _ =>
      let newPlacementList := finalizedPlacements si.shardId
      let current1 :=
        if firstShard then newPlacementList
        else IntersectPlacementList currentPlacementList newPlacementList
      if current1 = [] then current1
      else WorkersContainingAllShardsGo finalizedPlacements rest false current1

/-- `WorkersContainingAllShards`: placements present (by node name and
port) on every pruned shard. -/
def WorkersContainingAllShards (finalizedPlacements : Nat → List ShardPlacement)
    (prunedShardIntervalsList : List (List ShardInterval)) : List ShardPlacement :=
  WorkersContainingAllShardsGo finalizedPlacements prunedShardIntervalsList true []

/-- `UpdateOrDeleteRTE`: the entry requires UPDATE or DELETE permission. -/
def UpdateOrDeleteRTE (rangeTableEntry : RangeTblEntryM) : Bool :=
  rangeTableEntry.requiredPermsUpdate || rangeTableEntry.requiredPermsDelete

/-- `GetUpdateOrDeleteRTE`: first range table entry requiring UPDATE or
DELETE permission, if any. -/
def GetUpdateOrDeleteRTE (rangeTableList : List RangeTblEntryM) : Option RangeTblEntryM :=
  rangeTableList.find? UpdateOrDeleteRTE

/-- `SelectsFromDistributedTable`: some entry reads (not modifies) a
distributed (non-reference) table. -/
def SelectsFromDistributedTable (cat : Catalog) (rangeTableList : List RangeTblEntryM) : Bool :=
  rangeTableList.any fun rte =>
    if rte.relid = 0 then false
    else decide (cat.partitionMethod rte.relid ≠ .noneMethod) && !(UpdateOrDeleteRTE rte)

/-- Modelled from the spec: `UpdateRelationToShardNames`
(deparse_shard_query.c, not under src/) rewrites every relation range
table entry to address its resolved shard; per §4.6 and the comment in
`RouterJob`, a relation whose shards were all pruned away (no entry in the
relation-shard mapping) is replaced by a subquery range table entry that
returns no results, keeping its required-permission bits. -/
def UpdateRelationToShardNames (rangeTableList : List RangeTblEntryM)
    (relationShardList : List RelationShard) : List RangeTblEntryM :=
  rangeTableList.map fun rte =>
    if rte.rtekind = .relation ∧
        relationShardList.all (fun rs => decide (rs.relationId ≠ rte.relid)) then
      { rte with rtekind := .subquery }
    else rte

/-- Rejection for two references to the same relation pruning to
different shards. -/
def relationPrunesError : DeferredErrorMessage :=
  DeferredError "cannot run command which targets multiple shards" none none

/-- Rejection when no worker carries placements of every targeted shard. -/
def noWorkerWithAllPlacementsError : DeferredErrorMessage :=
  DeferredError "found no worker with all shard placements" none none

/-- Hint of the multi-shard rejection for UPDATE/DELETE, naming the
partition column. -/
def multiShardModifyHint (partitionColumnName : String) : String :=
  "Consider using an equality filter on partition column \"" ++ partitionColumnName ++
    "\" to target a single shard. If you'd like to run a multi-shard operation, use master_modify_multiple_shards()."

/-- The multi-shard rejection built in `PlanRouterQuery` when a relation
keeps more than one shard after pruning. -/
def multiShardCommandError (q : QueryM) (cat : Catalog) : DeferredErrorMessage :=
  let commandName :=
    match q.commandType with
    | .update => "UPDATE"
    | .delete => "DELETE"
    | _ => "SELECT"
  let errorHint :=
    if q.commandType = .update ∨ q.commandType = .delete then
      match GetUpdateOrDeleteRTE q.rtable with
      | some rte => multiShardModifyHint (cat.partitionColumnName rte.relid)
      | none => ""
    else ""
  DeferredError ("cannot run " ++ commandName ++ " command which targets multiple shards")
    none (some errorHint)

/-- The relation-shard mappings collected from the non-empty pruned
lists, in iteration order. -/
def PrunedRelationShards (prunedLists : List (List ShardInterval)) : List RelationShard :=
  prunedLists.foldr
    (fun l acc =>
      match l with
      | [] => acc
      | si :: _ => ⟨si.relationId, si.shardId⟩ :: acc)
    []

/-- The anchor shard id: the first pruned shard of the query. -/
def FirstAnchorShardId : List (List ShardInterval) → Option Nat
  | [] => none
  | [] :: rest => FirstAnchorShardId rest
  | (si :: _) :: _ => some si.shardId

/-- The dummy placement `PlanRouterQuery` builds on the first active
worker when every shard was pruned away. -/
def DummyShardPlacement (w : WorkerNode) : ShardPlacement :=
  ⟨w.workerName, w.workerPort, w.groupId⟩

/-- Success payload of `PlanRouterQuery`: the out-parameters
`placementList`, `anchorShardId`, `relationShardList`, plus the range
table as left behind in the (mutated-in-place) original query. -/
structure PlanRouterOut where
  placementList : List ShardPlacement
  anchorShardId : Option Nat
  relationShardList : List RelationShard
  rtableAfter : List RangeTblEntryM
deriving DecidableEq, Repr

/-- `PlanRouterQuery`: prune per relation, reject multi-shard relations
and inconsistent repeated references, then resolve placements — the
intersection over present shards, a dummy placement on the first active
worker when everything was pruned and `replacePrunedQueryWithDummy` holds,
or the empty success for the INSERT ... SELECT caller.  On the success
path the relation references are rewritten to shards unless an
UPDATE/DELETE requires master evaluation.  `finalizedPlacements` models
the external `FinalizedShardPlacementList`, `activeWorkers` the external
`ActivePrimaryNodeList`, `requiresMasterEvaluation` the external
`RequiresMasterEvaluation(originalQuery)`. -/
def PlanRouterQuery (originalQuery : QueryM) (restrictions : List RelationRestriction)
    (finalizedPlacements : Nat → List ShardPlacement) (activeWorkers : List WorkerNode)
    (replacePrunedQueryWithDummy requiresMasterEvaluation : Bool) (cat : Catalog) :
    Except DeferredErrorMessage PlanRouterOut :=
  match TargetShardIntervalsForRouter restrictions with
  | none => .error (multiShardCommandError originalQuery cat)
  | some prunedRelationShardList =>
    let relationShardList := PrunedRelationShards prunedRelationShardList
    let shardsPresent := prunedRelationShardList.any fun l => decide (l ≠ [])
    let shardId := FirstAnchorShardId prunedRelationShardList
    let rtableAfter :=
      if UpdateOrDeleteQuery originalQuery ∧ requiresMasterEvaluation then
        originalQuery.rtable
      else
        UpdateRelationToShardNames originalQuery.rtable relationShardList
    if RelationPrunesToMultipleShards relationShardList then
      .error relationPrunesError
    else if shardsPresent then
      let workerList := WorkersContainingAllShards finalizedPlacements prunedRelationShardList
      if workerList = [] then .error noWorkerWithAllPlacementsError
      else .ok ⟨workerList, shardId, relationShardList, rtableAfter⟩
    else if replacePrunedQueryWithDummy then
      match activeWorkers with
      | [] => .error noWorkerWithAllPlacementsError
      | w :: _ => .ok ⟨[DummyShardPlacement w], shardId, relationShardList, rtableAfter⟩
    else
      .ok ⟨[], none, relationShardList, originalQuery.rtable⟩

/-- `RouterJob`: builds the Job for a single-shard SELECT/UPDATE/DELETE.
`replacePrunedQueryWithDummy` is always true here.  When the UPDATE/DELETE
target's range table entry was rewritten into a subquery (all shards
pruned), the job keeps an empty task list; otherwise exactly one task is
emitted — a read task for SELECT, a modify task for UPDATE/DELETE (with a
fatal error for a reference-table modification that selects from a
distributed table). -/
def RouterJob (originalQuery : QueryM) (restrictions : List RelationRestriction)
    (finalizedPlacements : Nat → List ShardPlacement) (activeWorkers : List WorkerNode)
    (requiresMasterEvaluation : Bool) (cat : Catalog) : RouterResult :=
  match PlanRouterQuery originalQuery restrictions finalizedPlacements activeWorkers
      true requiresMasterEvaluation cat with
  | .error e => .deferred e
  | .ok out =>
    let job : Job := ⟨[], requiresMasterEvaluation, false⟩
    match GetUpdateOrDeleteRTE out.rtableAfter with
    | some updateOrDeleteRTE =>
      if updateOrDeleteRTE.rtekind = .subquery then
        .ok job
      else if originalQuery.commandType = .select then
        .ok { job with taskList := [⟨.routerTask, out.anchorShardId, out.placementList,
          out.relationShardList, false⟩] }
      else if cat.partitionMethod updateOrDeleteRTE.relid = .noneMethod ∧
          SelectsFromDistributedTable cat out.rtableAfter then
        .fatal "cannot perform select on a distributed table and modify a reference table"
      else
        .ok { job with taskList := [⟨.modifyTask, out.anchorShardId, out.placementList,
          out.relationShardList, false⟩] }
    | none =>
      if originalQuery.commandType = .select then
        .ok { job with taskList := [⟨.routerTask, out.anchorShardId, out.placementList,
          out.relationShardList, false⟩] }
      else
        .fatal "update or delete range table entry not found"

/-- Consistency relation on relation-shard mappings: same relation
implies same shard. -/
def SameRelationSameShard (a b : RelationShard) : Prop :=
  a.relationId = b.relationId → a.shardId = b.shardId

/-- A placement list carries some placement at the given node and port. -/
def HasPlacementAt (ps : List ShardPlacement) (n : String) (pt : Nat) : Prop :=
  ∃ p ∈ ps, p.nodeName = n ∧ p.nodePort = pt

/-- Fixture catalog: every relation hash-distributed on column 1, the
partition column named "customer_id". -/
def catFix : Catalog := ⟨fun _ => true, fun _ => .hash, fun _ => some 1, fun _ => "customer_id"⟩

/-- Fixture catalog with APPEND-distributed relations. -/
def catAppendFix : Catalog :=
  ⟨fun _ => true, fun _ => .append, fun _ => some 1, fun _ => "customer_id"⟩

/-- Fixture worker node. -/
def workerFix : WorkerNode := ⟨"worker1", 5432, 1⟩

/-- Fixture range table entry of an UPDATE target relation. -/
def rteUpdateFix : RangeTblEntryM := ⟨.relation, 10, .ordinaryTable, true, false⟩

/-- Fixture range table entry of a read-only relation reference. -/
def rteSelectFix : RangeTblEntryM := ⟨.relation, 10, .ordinaryTable, false, false⟩

/-- Fixture UPDATE whose WHERE clause is a literal contradiction (the
restriction below carries the resulting false clause). -/
def updateContradictionFix : QueryM :=
  ⟨.update, false, [], [rteUpdateFix], [], none, [], [], none, false⟩

/-- Fixture SELECT whose WHERE clause is a literal contradiction. -/
def selectContradictionFix : QueryM :=
  ⟨.select, false, [], [rteSelectFix], [], none, [], [], none, false⟩

/-- Fixture restriction with a literal-false clause (UPDATE variant). -/
def restrictionFalseUpdateFix : RelationRestriction := ⟨10, 1, 8, true, [], rteUpdateFix⟩

/-- Fixture restriction with a literal-false clause (SELECT variant). -/
def restrictionFalseSelectFix : RelationRestriction := ⟨10, 1, 8, true, [], rteSelectFix⟩

/-- Fixture shard intervals: ranges [0,10] and [11,20] of relation 10. -/
def shardsFix : List ShardInterval := [⟨10, 101, 0, 10⟩, ⟨10, 102, 11, 20⟩]

/-- Fixture cache entry for a hash-distributed table. -/
def entryHashFix : DistTableCacheEntry := ⟨10, .hash, shardsFix, some 1, "customer_id"⟩

/-- Fixture cache entry for an append-distributed table. -/
def entryAppendFix : DistTableCacheEntry := ⟨10, .append, shardsFix, some 1, "customer_id"⟩

/-- Fixture cache entry for a reference table. -/
def entryRefFix : DistTableCacheEntry := ⟨10, .noneMethod, [⟨10, 101, 0, 0⟩], none, "ref"⟩

/-- Fixture INSERT with the given partition-column expression at resno 1. -/
def insertQueryFix (e : PgExpr) : QueryM :=
  ⟨.insert, false, [], [rteSelectFix], [⟨1, false, e⟩], none, [], [], none, false⟩

/-- Fixture single-assignment UPDATE: `SET colAttno = setExpr`, with the
WHERE clause contributing the equality facts `eqs`, over a table whose
partition column is `attno`. -/
def mkUpdateQuery (attno : Nat) (setExpr : PgExpr) (eqs : List (Nat × Int)) : QueryM :=
  ⟨.update, false, [], [rteUpdateFix], [⟨attno, false, setExpr⟩], none, eqs, [], none, false⟩

/-- Fixture catalog whose partition column attribute is `attno`. -/
def mkCat (attno : Nat) : Catalog :=
  ⟨fun _ => true, fun _ => .hash, fun _ => some attno, fun _ => "customer_id"⟩

/-- C10: re-running the Expression Reducibility Analyzer on the same
expression tree yields the same (irreducible, hasVarArgument,
hasBadCoalesce) triple.  The only state `MasterIrreducibleExpression`
carries between calls is the caller's pair of accumulator flags; feeding
the output flags of one run back into a second run on the same tree is a
fixed point, so classification is idempotent and free of hidden state. -/
theorem expression_analyzer_idempotent (e : PgExpr) (varArgument badCoalesce : Bool) :
    MasterIrreducibleExpression e
        (MasterIrreducibleExpression e varArgument badCoalesce).2.1
        (MasterIrreducibleExpression e varArgument badCoalesce).2.2 =
      MasterIrreducibleExpression e varArgument badCoalesce := by
  simp only [MasterIrreducibleExpression]
  refine Prod.ext rfl (Prod.ext ?_ ?_) <;>
    simp [Bool.or_assoc]

/-- C5: INSERT/UPDATE/DELETE are always classified routable, and a SELECT
is classified not routable exactly when router execution is disabled, the
statement has FOR UPDATE, or some relation range table entry's partition
method is neither HASH, RANGE nor NONE.  (`MultiRouterPlannableQuery` is a
plain function of its arguments: a pure predicate.) -/
theorem router_classifier_characterization (q : QueryM)
    (restrictions : List RelationRestriction) (enableRouterExecution : Bool) (cat : Catalog) :
    ((q.commandType = .insert ∨ q.commandType = .update ∨ q.commandType = .delete) →
        MultiRouterPlannableQuery q restrictions enableRouterExecution cat = true) ∧
      (q.commandType = .select →
        (MultiRouterPlannableQuery q restrictions enableRouterExecution cat = false ↔
          enableRouterExecution = false ∨ q.hasForUpdate = true ∨
            ∃ rr ∈ restrictions, rr.rte.rtekind = .relation ∧
              cat.partitionMethod rr.rte.relid ≠ .hash ∧
              cat.partitionMethod rr.rte.relid ≠ .range ∧
              cat.partitionMethod rr.rte.relid ≠ .noneMethod)) := by
  constructor
  · intro h
    unfold MultiRouterPlannableQuery
    rw [if_pos h]
  · intro hsel
    have hnot : ¬(q.commandType = .insert ∨ q.commandType = .update ∨
        q.commandType = .delete) := by
      rw [hsel]
      rintro (h | h | h) <;> exact CmdType.noConfusion h
    unfold MultiRouterPlannableQuery
    rw [if_neg hnot]
    cases enableRouterExecution with
    | false => simp
    | true =>
      cases hf : q.hasForUpdate with
      | true => simp [hf]
      | false =>
        simp only [hf, Bool.not_true, Bool.false_eq_true, Bool.true_eq_false, if_false,
          false_or]
        rw [List.all_eq_false]
        constructor
        · rintro ⟨rr, hrr, hp⟩
          refine ⟨rr, hrr, ?_⟩
          by_cases hk : rr.rte.rtekind = .relation
          · rw [if_pos hk] at hp
            simp only [decide_eq_true_eq] at hp
            push_neg at hp
            exact ⟨hk, hp.1, hp.2.2, hp.2.1⟩
          · rw [if_neg hk] at hp
            exact absurd rfl hp
        · rintro ⟨rr, hrr, hk, h1, h2, h3⟩
          refine ⟨rr, hrr, ?_⟩
          rw [if_pos hk]
          simp only [decide_eq_true_eq]
          rintro (h | h | h)
          · exact h1 h
          · exact h3 h
          · exact h2 h

/-- Witness for C5: a DELETE is routable; a SELECT over an
append-distributed relation is not. -/
theorem router_classifier_characterization_witness :
    MultiRouterPlannableQuery updateContradictionFix [restrictionFalseUpdateFix] true catFix =
        true ∧
      MultiRouterPlannableQuery selectContradictionFix [restrictionFalseSelectFix] true
        catAppendFix = false := by
  constructor
  · exact (router_classifier_characterization updateContradictionFix
      [restrictionFalseUpdateFix] true catFix).1 (Or.inr (Or.inl rfl))
  · exact (router_classifier_characterization selectContradictionFix
      [restrictionFalseSelectFix] true catAppendFix).2 rfl |>.mpr
      (Or.inr (Or.inr ⟨restrictionFalseSelectFix, by simp,
        rfl, by decide, by decide, by decide⟩))

/-- `SameRelationSameShard` is symmetric. -/
theorem sameRelationSameShard_symm : Symmetric SameRelationSameShard :=
  fun _ _ h hba => (h hba.symm).symm

/-- On a list sorted by the relation-shard comparator, the adjacent-pair
scan finds no conflict exactly when the list is pairwise consistent. -/
theorem adjacentShardConflict_sorted_iff :
    ∀ l : List RelationShard, l.Sorted CompareRelationShardsLe →
      (AdjacentShardConflict l = false ↔ l.Pairwise SameRelationSameShard)
  | [], _ => by simp [AdjacentShardConflict]
  | [a], _ => by simp [AdjacentShardConflict]
  | a :: b :: t, hs => by
    have hs' : (b :: t).Sorted CompareRelationShardsLe := hs.of_cons
    have ih := adjacentShardConflict_sorted_iff (b :: t) hs'
    have hd : AdjacentShardConflict (a :: b :: t) =
        ((decide (a.relationId = b.relationId) && decide (a.shardId ≠ b.shardId)) ||
          AdjacentShardConflict (b :: t)) := rfl
    have hhead : ((decide (a.relationId = b.relationId) &&
        decide (a.shardId ≠ b.shardId)) = false) ↔ SameRelationSameShard a b := by
      unfold SameRelationSameShard
      rcases eq_or_ne a.relationId b.relationId with h | h
      · simp [h]
      · simp [h]
    rw [hd, Bool.or_eq_false_iff, hhead, ih, List.pairwise_cons (a := a)]
    constructor
    · rintro ⟨hab, hX⟩
      refine ⟨?_, hX⟩
      intro x hx
      rcases List.mem_cons.mp hx with h1 | h1
      · subst h1; exact hab
      · have hle_ab : CompareRelationShardsLe a b :=
          List.rel_of_sorted_cons hs b (List.mem_cons_self b t)
        have hle_bx : CompareRelationShardsLe b x := List.rel_of_sorted_cons hs' x h1
        have hPbx : SameRelationSameShard b x := (List.pairwise_cons.mp hX).1 x h1
        intro hax
        have hrel : a.relationId = b.relationId ∧ b.relationId = x.relationId := by
          unfold CompareRelationShardsLe at hle_ab hle_bx
          omega
        exact (hab hrel.1).trans (hPbx hrel.2)
    · rintro ⟨hall, hX⟩
      exact ⟨hall b (List.mem_cons_self b t), hX⟩

/-- Pairwise consistency follows from consistency of all pairs. -/
theorem pairwise_of_forall_mem {l : List RelationShard}
    (h : ∀ a ∈ l, ∀ b ∈ l, SameRelationSameShard a b) :
    l.Pairwise SameRelationSameShard := by
  induction l with
  | nil => exact List.Pairwise.nil
  | cons a t ih =>
    refine List.Pairwise.cons ?_ (ih ?_)
    · intro b hb
      exact h a (List.mem_cons_self a t) b (List.mem_cons_of_mem a hb)
    · intro x hx y hy
      exact h x (List.mem_cons_of_mem a hx) y (List.mem_cons_of_mem a hy)

/-- `RelationPrunesToMultipleShards` returns false exactly when any two
mappings for the same relation name the same shard. -/
theorem relationPrunesToMultipleShards_false_iff (l : List RelationShard) :
    RelationPrunesToMultipleShards l = false ↔
      ∀ a ∈ l, ∀ b ∈ l, a.relationId = b.relationId → a.shardId = b.shardId := by
  unfold RelationPrunesToMultipleShards SortRelationShardList
  rw [adjacentShardConflict_sorted_iff _
    (List.sorted_insertionSort CompareRelationShardsLe l)]
  rw [(List.perm_insertionSort CompareRelationShardsLe l).pairwise_iff
    (fun h hba => (h hba.symm).symm)]
  constructor
  · intro hp a ha b hb
    exact List.Pairwise.forall_of_forall sameRelationSameShard_symm
      (fun x _ _ => rfl) hp ha hb
  · intro h
    exact pairwise_of_forall_mem h

/-- Every pruned list `TargetShardIntervalsForRouter` returns has at most
one shard. -/
theorem targetShardIntervals_some_length :
    ∀ (rs : List RelationRestriction) (lss : List (List ShardInterval)),
      TargetShardIntervalsForRouter rs = some lss → ∀ l ∈ lss, l.length ≤ 1
  | [], lss, h => by
    simp only [TargetShardIntervalsForRouter, Option.some.injEq] at h
    subst h
    simp
  | rr :: rest, lss, h => by
    unfold TargetShardIntervalsForRouter at h
    by_cases hlen : (PrunedForRestriction rr).length > 1
    · rw [if_pos hlen] at h
      cases h
    · rw [if_neg hlen] at h
      cases hrest : TargetShardIntervalsForRouter rest with
      | none => rw [hrest] at h; cases h
      | some ls =>
        rw [hrest] at h
        cases h
        intro l hl
        rcases List.mem_cons.mp hl with h1 | h1
        · subst h1; omega
        · exact targetShardIntervals_some_length rest ls hrest l h1

/-- A relation whose pruning keeps more than one shard makes
`TargetShardIntervalsForRouter` abort with the multi-shard marker. -/
theorem targetShardIntervals_multi_none :
    ∀ (rs : List RelationRestriction) (rr : RelationRestriction), rr ∈ rs →
      rr.containsFalseClause = false → rr.shardCount ≠ 0 →
      rr.prunedShardIntervalList.length > 1 →
      TargetShardIntervalsForRouter rs = none
  | [], rr, h, _, _, _ => absurd h (List.not_mem_nil rr)
  | r0 :: rest, rr, h, hf, hc, hlen => by
    rcases List.mem_cons.mp h with h1 | h1
    · subst h1
      have hp : PrunedForRestriction rr = rr.prunedShardIntervalList := by
        unfold PrunedForRestriction
        rw [if_pos ⟨hf, hc⟩]
      unfold TargetShardIntervalsForRouter
      rw [hp, if_pos hlen]
    · have hrest := targetShardIntervals_multi_none rest rr h1 hf hc hlen
      unfold TargetShardIntervalsForRouter
      rw [hrest]
      by_cases hl : (PrunedForRestriction r0).length > 1
      · rw [if_pos hl]
      · rw [if_neg hl]

/-- A successful `PlanRouterQuery` passed the pruning and the
cross-reference check, and reports the pruned relation-shard mapping. -/
theorem planRouterQuery_ok_relationShards (q : QueryM) (rs : List RelationRestriction)
    (finp : Nat → List ShardPlacement) (ws : List WorkerNode) (dummy rme : Bool)
    (cat : Catalog) (out : PlanRouterOut)
    (h : PlanRouterQuery q rs finp ws dummy rme cat = .ok out) :
    ∃ lss, TargetShardIntervalsForRouter rs = some lss ∧
      out.relationShardList = PrunedRelationShards lss ∧
      RelationPrunesToMultipleShards (PrunedRelationShards lss) = false := by
  unfold PlanRouterQuery at h
  cases htsifr : TargetShardIntervalsForRouter rs with
  | none =>
    rw [htsifr] at h
    cases h
  | some lss =>
    rw [htsifr] at h
    simp only [] at h
    refine ⟨lss, rfl, ?_⟩
    by_cases hrp : RelationPrunesToMultipleShards (PrunedRelationShards lss) = true
    · rw [if_pos hrp] at h
      cases h
    · rw [if_neg hrp] at h
      refine And.intro ?_ (Bool.not_eq_true _ ▸ hrp)
      by_cases hsp : (lss.any fun l => decide (l ≠ [])) = true
      · rw [if_pos hsp] at h
        by_cases hw : WorkersContainingAllShards finp lss = []
        · rw [if_pos hw] at h
          cases h
        · rw [if_neg hw] at h
          cases h
          rfl
      · rw [if_neg hsp] at h
        by_cases hd : dummy = true
        · rw [if_pos hd] at h
          cases hws : ws with
          | nil => rw [hws] at h; cases h
          | cons w rest =>
            rw [hws] at h
            cases h
            rfl
        · rw [if_neg hd] at h
          cases h
          rfl

/-- C1: for a routable SELECT/UPDATE/DELETE, (i) every relation's pruned
shard list has cardinality at most 1; (ii) if one relation prunes to more
than one shard the whole attempt aborts — `TargetShardIntervalsForRouter`
returns the multi-shard marker, `PlanRouterQuery` the multi-shard
rejection, with no partial per-relation fallback; (iii) on success two
references resolving the same relation always name the same shard; (iv)
otherwise the cross-reference `DeferredError` is returned. -/
theorem single_shard_invariant (q : QueryM) (rs : List RelationRestriction)
    (finp : Nat → List ShardPlacement) (ws : List WorkerNode) (dummy rme : Bool)
    (cat : Catalog) :
    (∀ lss, TargetShardIntervalsForRouter rs = some lss → ∀ l ∈ lss, l.length ≤ 1) ∧
      (∀ rr ∈ rs, rr.containsFalseClause = false → rr.shardCount ≠ 0 →
        rr.prunedShardIntervalList.length > 1 →
          TargetShardIntervalsForRouter rs = none ∧
            PlanRouterQuery q rs finp ws dummy rme cat =
              .error (multiShardCommandError q cat)) ∧
      (∀ out, PlanRouterQuery q rs finp ws dummy rme cat = .ok out →
        ∀ a ∈ out.relationShardList, ∀ b ∈ out.relationShardList,
          a.relationId = b.relationId → a.shardId = b.shardId) ∧
      (∀ lss, TargetShardIntervalsForRouter rs = some lss →
        RelationPrunesToMultipleShards (PrunedRelationShards lss) = true →
          PlanRouterQuery q rs finp ws dummy rme cat = .error relationPrunesError) := by
    refine ⟨targetShardIntervals_some_length rs, ?_, ?_, ?_⟩
    · intro rr hrr hf hc hlen
      have hnone := targetShardIntervals_multi_none rs rr hrr hf hc hlen
      refine ⟨hnone, ?_⟩
      unfold PlanRouterQuery
      rw [hnone]
    · intro out hout
      rcases planRouterQuery_ok_relationShards q rs finp ws dummy rme cat out hout with
        ⟨lss, _, hrel, hfalse⟩
      rw [hrel]
      exact (relationPrunesToMultipleShards_false_iff (PrunedRelationShards lss)).mp hfalse
    · intro lss hlss hrp
      unfold PlanRouterQuery
      rw [hlss]
      simp only []
      rw [if_pos hrp]

/-- Witness for C1: a two-shard pruning aborts with the multi-shard
rejection, and the contradiction fixture is accepted with pruned lists of
cardinality 0. -/
theorem single_shard_invariant_witness :
    TargetShardIntervalsForRouter [⟨10, 1, 8, false, shardsFix, rteUpdateFix⟩] = none ∧
      PlanRouterQuery updateContradictionFix [⟨10, 1, 8, false, shardsFix, rteUpdateFix⟩]
        (fun _ => []) [workerFix] true false catFix =
        .error (multiShardCommandError updateContradictionFix catFix) ∧
      ∀ a ∈ ([⟨10, 101⟩, ⟨10, 101⟩] : List RelationShard),
        ∀ b ∈ ([⟨10, 101⟩, ⟨10, 101⟩] : List RelationShard),
          a.relationId = b.relationId → a.shardId = b.shardId := by
  have h2 := (single_shard_invariant updateContradictionFix
    [⟨10, 1, 8, false, shardsFix, rteUpdateFix⟩] (fun _ => []) [workerFix] true false
    catFix).2.1 ⟨10, 1, 8, false, shardsFix, rteUpdateFix⟩ (List.mem_singleton.mpr rfl)
    rfl (by decide) (by decide)
  refine ⟨h2.1, h2.2, ?_⟩
  have h3 := (single_shard_invariant updateContradictionFix
    [⟨10, 1, 2, false, [⟨10, 101, 0, 10⟩], rteUpdateFix⟩,
     ⟨10, 2, 2, false, [⟨10, 101, 0, 10⟩], rteUpdateFix⟩]
    (fun _ => [⟨"worker1", 5432, 1⟩]) [workerFix] true false catFix).2.2.1
    ⟨[⟨"worker1", 5432, 1⟩], some 101, [⟨10, 101⟩, ⟨10, 101⟩], [rteUpdateFix]⟩ (by rfl)
  exact h3

/-- Membership in `IntersectPlacementList`: a kept placement comes from
the right list and matches some left placement on node name and port. -/
theorem mem_intersectPlacementList (lhs rhs : List ShardPlacement) (p : ShardPlacement) :
    p ∈ IntersectPlacementList lhs rhs ↔
      p ∈ rhs ∧ ∃ l ∈ lhs, p.nodePort = l.nodePort ∧ p.nodeName = l.nodeName := by
  simp only [IntersectPlacementList, List.mem_flatMap, List.mem_filter,
    Bool.and_eq_true, decide_eq_true_eq]
  constructor
  · rintro ⟨l, hl, hp, hport, hname⟩
    exact ⟨hp, l, hl, hport, hname⟩
  · rintro ⟨hp, l, hl, hport, hname⟩
    exact ⟨l, hl, hp, hport, hname⟩

/-- At the (nodeName, nodePort) level, `IntersectPlacementList` is the
intersection. -/
theorem hasPlacementAt_intersect (lhs rhs : List ShardPlacement) (n : String) (pt : Nat) :
    HasPlacementAt (IntersectPlacementList lhs rhs) n pt ↔
      HasPlacementAt lhs n pt ∧ HasPlacementAt rhs n pt := by
  unfold HasPlacementAt
  constructor
  · rintro ⟨p, hp, hn, hpt⟩
    rcases (mem_intersectPlacementList lhs rhs p).mp hp with ⟨hrhs, l, hl, hport, hname⟩
    exact ⟨⟨l, hl, by rw [← hname, hn], by rw [← hport, hpt]⟩, ⟨p, hrhs, hn, hpt⟩⟩
  · rintro ⟨⟨l, hl, hln, hlpt⟩, ⟨r, hr, hrn, hrpt⟩⟩
    refine ⟨r, ?_, hrn, hrpt⟩
    exact (mem_intersectPlacementList lhs rhs r).mpr
      ⟨hr, l, hl, by rw [hrpt, hlpt], by rw [hrn, hln]⟩

/-- Invariant of the intersection loop (after the first shard has seeded
the running list): a pair survives exactly when it is in the running list
and on every remaining non-empty shard's placements. -/
theorem wcasGo_false_hasAt (finp : Nat → List ShardPlacement) (n : String) (pt : Nat) :
    ∀ (ls : List (List ShardInterval)) (current : List ShardPlacement),
      HasPlacementAt (WorkersContainingAllShardsGo finp ls false current) n pt ↔
        (HasPlacementAt current n pt ∧
          ∀ l ∈ ls, ∀ si, l.head? = some si → HasPlacementAt (finp si.shardId) n pt)
  | [], current => by
    simp [WorkersContainingAllShardsGo]
  | [] :: rest, current => by
    have ih := wcasGo_false_hasAt finp n pt rest current
    have heq : WorkersContainingAllShardsGo finp ([] :: rest) false current =
        WorkersContainingAllShardsGo finp rest false current := rfl
    rw [heq, ih]
    constructor
    · rintro ⟨hc, hrest⟩
      refine ⟨hc, ?_⟩
      intro l hl si hsi
      rcases List.mem_cons.mp hl with h1 | h1
      · subst h1; cases hsi
      · exact hrest l h1 si hsi
    · rintro ⟨hc, hall⟩
      exact ⟨hc, fun l hl si hsi => hall l (List.mem_cons_of_mem _ hl) si hsi⟩
  | (si0 :: t) :: rest, current => by
    have heq : WorkersContainingAllShardsGo finp ((si0 :: t) :: rest) false current =
        (if IntersectPlacementList current (finp si0.shardId) = [] then
          IntersectPlacementList current (finp si0.shardId)
        else WorkersContainingAllShardsGo finp rest false
          (IntersectPlacementList current (finp si0.shardId))) := rfl
    by_cases hint : IntersectPlacementList current (finp si0.shardId) = []
    · rw [heq, if_pos hint, hint]
      constructor
      · rintro ⟨p, hp, _⟩
        exact absurd hp (List.not_mem_nil p)
      · rintro ⟨hc, hall⟩
        have h0 := hall (si0 :: t) (List.mem_cons_self _ _) si0 rfl
        have hmem := (hasPlacementAt_intersect current (finp si0.shardId) n pt).mpr ⟨hc, h0⟩
        rw [hint] at hmem
        rcases hmem with ⟨p, hp, _⟩
        exact absurd hp (List.not_mem_nil p)
    · rw [heq, if_neg hint, wcasGo_false_hasAt finp n pt rest _, hasPlacementAt_intersect]
      constructor
      · rintro ⟨⟨hc, h0⟩, hrest⟩
        refine ⟨hc, ?_⟩
        intro l hl si hsi
        rcases List.mem_cons.mp hl with h1 | h1
        · subst h1
          cases hsi
          exact h0
        · exact hrest l h1 si hsi
      · rintro ⟨hc, hall⟩
        exact ⟨⟨hc, hall (si0 :: t) (List.mem_cons_self _ _) si0 rfl⟩,
          fun l hl si hsi => hall l (List.mem_cons_of_mem _ hl) si hsi⟩

/-- Pair-level characterization of `WorkersContainingAllShards` when at
least one pruned list is non-empty. -/
theorem workersContainingAllShards_hasAt (finp : Nat → List ShardPlacement)
    (n : String) (pt : Nat) :
    ∀ ls : List (List ShardInterval), (∃ l ∈ ls, l ≠ []) →
      (HasPlacementAt (WorkersContainingAllShards finp ls) n pt ↔
        ∀ l ∈ ls, ∀ si, l.head? = some si → HasPlacementAt (finp si.shardId) n pt)
  | [], hne => absurd hne (by simp)
  | [] :: rest, hne => by
    have hne' : ∃ l ∈ rest, l ≠ [] := by
      rcases hne with ⟨l, hl, hlne⟩
      rcases List.mem_cons.mp hl with h1 | h1
      · subst h1; exact absurd rfl hlne
      · exact ⟨l, h1, hlne⟩
    have ih := workersContainingAllShards_hasAt finp n pt rest hne'
    have heq : WorkersContainingAllShards finp ([] :: rest) =
        WorkersContainingAllShards finp rest := rfl
    rw [heq, ih]
    constructor
    · intro hall l hl si hsi
      rcases List.mem_cons.mp hl with h1 | h1
      · subst h1; cases hsi
      · exact hall l h1 si hsi
    · intro hall l hl si hsi
      exact hall l (List.mem_cons_of_mem _ hl) si hsi
  | (si0 :: t) :: rest, _ => by
    have heq : WorkersContainingAllShards finp ((si0 :: t) :: rest) =
        (if finp si0.shardId = [] then finp si0.shardId
        else WorkersContainingAllShardsGo finp rest false (finp si0.shardId)) := rfl
    by_cases h0 : finp si0.shardId = []
    · rw [heq, if_pos h0]
      constructor
      · rintro ⟨p, hp, _⟩
        rw [h0] at hp
        exact absurd hp (List.not_mem_nil p)
      · intro hall
        exact hall (si0 :: t) (List.mem_cons_self _ _) si0 rfl
    · rw [heq, if_neg h0, wcasGo_false_hasAt finp n pt rest (finp si0.shardId)]
      constructor
      · rintro ⟨h1, hrest⟩
        intro l hl si hsi
        rcases List.mem_cons.mp hl with hh | hh
        · subst hh
          cases hsi
          exact h1
        · exact hrest l hh si hsi
      · intro hall
        exact ⟨hall (si0 :: t) (List.mem_cons_self _ _) si0 rfl,
          fun l hl si hsi => hall l (List.mem_cons_of_mem _ hl) si hsi⟩

/-- C3: (i) placement resolution over pruned shard lists keeps exactly the
(nodeName, nodePort) pairs present in the active (finalized) placements of
every non-empty pruned shard list; (ii) for a single shard list it returns
that shard's active placements unchanged; (iii) when the intersection is
empty, `PlanRouterQuery` fails with the no-worker `DeferredError`. -/
theorem placement_intersection_correctness (finp : Nat → List ShardPlacement) :
    (∀ ls : List (List ShardInterval), (∃ l ∈ ls, l ≠ []) → ∀ (n : String) (pt : Nat),
        (HasPlacementAt (WorkersContainingAllShards finp ls) n pt ↔
          ∀ l ∈ ls, ∀ si, l.head? = some si → HasPlacementAt (finp si.shardId) n pt)) ∧
      (∀ (si : ShardInterval) (t : List ShardInterval),
        WorkersContainingAllShards finp [si :: t] = finp si.shardId) ∧
      (∀ (q : QueryM) (rs : List RelationRestriction) (ws : List WorkerNode)
          (dummy rme : Bool) (cat : Catalog) (lss : List (List ShardInterval)),
        TargetShardIntervalsForRouter rs = some lss →
          (lss.any fun l => decide (l ≠ [])) = true →
          RelationPrunesToMultipleShards (PrunedRelationShards lss) = false →
          WorkersContainingAllShards finp lss = [] →
          PlanRouterQuery q rs finp ws dummy rme cat =
            .error noWorkerWithAllPlacementsError) := by
  refine ⟨fun ls hne n pt => workersContainingAllShards_hasAt finp n pt ls hne, ?_, ?_⟩
  · intro si t
    by_cases h0 : finp si.shardId = []
    · show (if finp si.shardId = [] then finp si.shardId
        else WorkersContainingAllShardsGo finp [] false (finp si.shardId)) = finp si.shardId
      rw [if_pos h0]
    · show (if finp si.shardId = [] then finp si.shardId
        else WorkersContainingAllShardsGo finp [] false (finp si.shardId)) = finp si.shardId
      rw [if_neg h0]
      rfl
  · intro q rs ws dummy rme cat lss hlss hne hrp hw
    unfold PlanRouterQuery
    rw [hlss]
    simp only []
    rw [if_neg (by rw [hrp]; exact Bool.false_ne_true), if_pos hne, if_pos hw]

/-- Witness for C3: two co-located shards intersect to the common worker;
disjoint placements make `PlanRouterQuery` fail with the no-worker
rejection. -/
theorem placement_intersection_correctness_witness :
    HasPlacementAt
        (WorkersContainingAllShards
          (fun sid => if sid = 101 then [⟨"worker1", 5432, 1⟩, ⟨"worker2", 5433, 2⟩]
            else [⟨"worker2", 5433, 2⟩])
          [[⟨10, 101, 0, 10⟩], [⟨11, 201, 0, 10⟩]])
        "worker2" 5433 ∧
      WorkersContainingAllShards (fun _ => [⟨"worker1", 5432, 1⟩]) [[⟨10, 101, 0, 10⟩]] =
        [⟨"worker1", 5432, 1⟩] ∧
      PlanRouterQuery updateContradictionFix
        [⟨10, 1, 2, false, [⟨10, 101, 0, 10⟩], rteUpdateFix⟩,
         ⟨11, 2, 2, false, [⟨11, 201, 0, 10⟩], rteUpdateFix⟩]
        (fun sid => if sid = 101 then [⟨"worker1", 5432, 1⟩] else [⟨"worker2", 5433, 2⟩])
        [workerFix] true false catFix = .error noWorkerWithAllPlacementsError := by
  refine ⟨?_, ?_, ?_⟩
  · refine ((placement_intersection_correctness _).1 _ ⟨[⟨10, 101, 0, 10⟩], by simp, by simp⟩
      "worker2" 5433).mpr ?_
    intro l hl si hsi
    rcases List.mem_cons.mp hl with h1 | h1
    · subst h1
      cases hsi
      exact ⟨⟨"worker2", 5433, 2⟩, by simp, rfl, rfl⟩
    · rcases List.mem_cons.mp h1 with h2 | h2
      · subst h2
        cases hsi
        exact ⟨⟨"worker2", 5433, 2⟩, by simp, rfl, rfl⟩
      · exact absurd h2 (List.not_mem_nil l)
  · exact (placement_intersection_correctness _).2.1 ⟨10, 101, 0, 10⟩ []
  · exact (placement_intersection_correctness _).2.2 updateContradictionFix _ [workerFix]
      true false catFix [[⟨10, 101, 0, 10⟩], [⟨11, 201, 0, 10⟩]] (by rfl) (by rfl)
      (by rfl) (by rfl)

/-- `find?` returns the designated element when it is the only one
satisfying the predicate. -/
theorem find?_eq_some_of_unique {α : Type} :
    ∀ (l : List α) (p : α → Bool) (x : α), x ∈ l → p x = true →
      (∀ y ∈ l, p y = true → y = x) → l.find? p = some x
  | [], _, x, hx, _, _ => absurd hx (List.not_mem_nil x)
  | a :: t, p, x, hx, hpx, huniq => by
    by_cases hpa : p a = true
    · rw [List.find?_cons_of_pos t hpa, huniq a (List.mem_cons_self a t) hpa]
    · have hx' : x ∈ t := by
        rcases List.mem_cons.mp hx with h1 | h1
        · subst h1; exact absurd hpx hpa
        · exact h1
      rw [List.find?_cons_of_neg t hpa]
      exact find?_eq_some_of_unique t p x hx' hpx
        (fun y hy hpy => huniq y (List.mem_cons_of_mem a hy) hpy)

/-- C2: (i) for a HASH/RANGE table and a constant partition value v that a
unique interval contains, `FindShardForInsert` returns that interval; (ii)
for a reference table it returns the table's single shard; (iii) for a
non-constant partition expression `RouterInsertJob` does not fail but
returns a job with `deferredPruning = true` and an empty task list. -/
theorem insert_determinism (q : QueryM) (entry : DistTableCacheEntry)
    (prune : Int → List ShardInterval) (attno : Nat) (v : Int) (si0 : ShardInterval) :
    ((entry.partitionMethod = .hash ∨ entry.partitionMethod = .range) →
        entry.partitionColumnAttno = some attno →
        ExtractInsertPartitionValue q attno = .ok (.constE v false) →
        si0 ∈ entry.sortedShardIntervalArray →
        si0.minValue ≤ v → v ≤ si0.maxValue →
        (∀ si ∈ entry.sortedShardIntervalArray,
          si.minValue ≤ v → v ≤ si.maxValue → si = si0) →
        FindShardForInsert q entry prune = .found si0) ∧
      (entry.partitionMethod = .noneMethod →
        ∀ si1, entry.sortedShardIntervalArray = [si1] →
          FindShardForInsert q entry prune = .found si1) ∧
      (q.commandType = .insert →
        entry.partitionColumnAttno = some attno →
        ∀ te, q.targetList.find? (fun t => decide (t.resno = attno)) = some te →
          (∀ cv cn, te.expr ≠ .constE cv cn) →
          ∀ rme, RouterInsertJob q entry prune rme = .ok ⟨[], true, true⟩) := by
  refine ⟨?_, ?_, ?_⟩
  · intro hm hattr hextract hmem hmin hmax huniq
    have hnm : ¬(entry.partitionMethod = .noneMethod) := by
      rcases hm with h | h <;> rw [h] <;> exact fun hc => PartitionMethod.noConfusion hc
    have hfind : FindShardInterval v entry = some si0 := by
      unfold FindShardInterval
      refine find?_eq_some_of_unique _ _ si0 hmem (by simp [hmin, hmax]) ?_
      intro y hy hpy
      rw [decide_eq_true_eq] at hpy
      exact huniq y hy hpy.1 hpy.2
    unfold FindShardForInsert
    rw [if_neg hnm, hattr]
    simp only [hextract, Bool.false_eq_true, if_false, if_pos hm, hfind]
  · intro hm si1 hsi1
    unfold FindShardForInsert
    rw [if_pos hm, hsi1]
  · intro hcmd hattr te hte hnc rme
    have hex : ExtractInsertPartitionValue q attno = .ok te.expr := by
      unfold ExtractInsertPartitionValue
      rw [hte]
    have hcp : CanShardPrune entry q = .ok false := by
      unfold CanShardPrune
      rw [if_neg (fun h => h hcmd), hattr]
      cases hexpr : te.expr with
      | constE cv cn => exact absurd hexpr (hnc cv cn)
      | varE a =>
        rw [hexpr] at hex
        simp only [hex]
      | funcE vol args =>
        rw [hexpr] at hex
        simp only [hex]
      | coalesceE args =>
        rw [hexpr] at hex
        simp only [hex]
      | caseE args =>
        rw [hexpr] at hex
        simp only [hex]
      | nodeE args =>
        rw [hexpr] at hex
        simp only [hex]
    unfold RouterInsertJob
    rw [hcp]
    simp only []
    rfl

/-- Witness for C2: value 15 resolves to the [11,20] shard of the hash
fixture; the reference fixture resolves to its single shard; a
stable-function partition value defers pruning. -/
theorem insert_determinism_witness :
    FindShardForInsert (insertQueryFix (.constE 15 false)) entryHashFix (fun _ => []) =
        .found ⟨10, 102, 11, 20⟩ ∧
      FindShardForInsert (insertQueryFix (.constE 15 false)) entryRefFix (fun _ => []) =
        .found ⟨10, 101, 0, 0⟩ ∧
      RouterInsertJob (insertQueryFix (.funcE .stable [])) entryHashFix (fun _ => []) false =
        .ok ⟨[], true, true⟩ := by
  refine ⟨?_, ?_, ?_⟩
  · exact (insert_determinism (insertQueryFix (.constE 15 false)) entryHashFix
      (fun _ => []) 1 15 ⟨10, 102, 11, 20⟩).1 (Or.inl rfl) rfl (by rfl) (by decide)
      (by decide) (by decide) (by decide)
  · exact (insert_determinism (insertQueryFix (.constE 15 false)) entryRefFix
      (fun _ => []) 1 15 ⟨10, 101, 0, 0⟩).2.1 rfl ⟨10, 101, 0, 0⟩ rfl
  · exact (insert_determinism (insertQueryFix (.funcE .stable [])) entryHashFix
      (fun _ => []) 1 0 ⟨10, 101, 0, 10⟩).2.2 rfl rfl ⟨1, false, .funcE .stable []⟩
      (by rfl) (by intro cv cn h; cases h) false

/-- C6 fails as stated: pruning to zero shards does reject with a
`DeferredErrorMessage`, but its hint is the generic create-a-shard advice
and does not name the partition column (here "customer_id"). -/
theorem insert_hint_counterexample :
    FindShardForInsert (insertQueryFix (.constE 50 false)) entryHashFix (fun _ => []) =
        .deferredErr insertZeroShardsError ∧
      insertZeroShardsError.hint = some
        "Make sure you have created a shard which can receive this partition column value." ∧
      ¬ ("customer_id".data <:+:
        "Make sure you have created a shard which can receive this partition column value.".data) := by
  refine ⟨by rfl, rfl, by decide⟩

/-- C6 (amended): on the INSERT path with a constant partition value,
pruning to zero shards or to multiple shards returns a
`DeferredErrorMessage` (not a success, not a fatal abort); the hint names
the partition column in the multiple-shards case, while the zero-shards
hint is generic advice that does not embed the column name. -/
theorem insert_shard_count_errors (q : QueryM) (entry : DistTableCacheEntry)
    (prune : Int → List ShardInterval) (attno : Nat) (v : Int) :
    ((entry.partitionMethod = .hash ∨ entry.partitionMethod = .range) →
        entry.partitionColumnAttno = some attno →
        ExtractInsertPartitionValue q attno = .ok (.constE v false) →
        FindShardInterval v entry = none →
        FindShardForInsert q entry prune = .deferredErr insertZeroShardsError) ∧
      (entry.partitionMethod = .append →
        entry.partitionColumnAttno = some attno →
        ExtractInsertPartitionValue q attno = .ok (.constE v false) →
        ∀ s1 s2 rest, prune v = s1 :: s2 :: rest →
          FindShardForInsert q entry prune =
            .deferredErr (insertMultipleShardsError entry.partitionColumnName)) ∧
      (∀ name : String, ∃ h : String, (insertMultipleShardsError name).hint = some h ∧
        name.data <:+: h.data) := by
  refine ⟨?_, ?_, ?_⟩
  · intro hm hattr hextract hfind
    have hnm : ¬(entry.partitionMethod = .noneMethod) := by
      rcases hm with h | h <;> rw [h] <;> exact fun hc => PartitionMethod.noConfusion hc
    unfold FindShardForInsert
    rw [if_neg hnm, hattr]
    simp only [hextract, Bool.false_eq_true, if_false, if_pos hm, hfind]
  · intro hm hattr hextract s1 s2 rest hprune
    have hnm : ¬(entry.partitionMethod = .noneMethod) := by
      rw [hm]; exact fun hc => PartitionMethod.noConfusion hc
    have hnhr : ¬(entry.partitionMethod = .hash ∨ entry.partitionMethod = .range) := by
      rw [hm]; rintro (h | h) <;> exact PartitionMethod.noConfusion h
    unfold FindShardForInsert
    rw [if_neg hnm, hattr]
    simp only [hextract, Bool.false_eq_true, if_false, if_neg hnhr, hprune]
  · intro name
    refine ⟨"Make sure the value for partition column \"" ++ name ++
      "\" falls into a single shard.", rfl, ?_⟩
    exact ⟨"Make sure the value for partition column \"".data,
      "\" falls into a single shard.".data, by simp⟩

/-- Witness for C6 (amended): value 50 lies outside both fixture shards;
an append fixture pruning to both shards is a multiple-shards rejection
whose hint embeds "customer_id". -/
theorem insert_shard_count_errors_witness :
    FindShardForInsert (insertQueryFix (.constE 50 false)) entryHashFix (fun _ => []) =
        .deferredErr insertZeroShardsError ∧
      FindShardForInsert (insertQueryFix (.constE 5 false)) entryAppendFix
        (fun _ => shardsFix) = .deferredErr (insertMultipleShardsError "customer_id") ∧
      ∃ h : String, (insertMultipleShardsError "customer_id").hint = some h ∧
        "customer_id".data <:+: h.data := by
  refine ⟨?_, ?_, ?_⟩
  · exact (insert_shard_count_errors (insertQueryFix (.constE 50 false)) entryHashFix
      (fun _ => []) 1 50).1 (Or.inl rfl) rfl (by rfl) (by rfl)
  · exact (insert_shard_count_errors (insertQueryFix (.constE 5 false)) entryAppendFix
      (fun _ => shardsFix) 1 5).2.1 rfl rfl (by rfl) ⟨10, 101, 0, 10⟩ ⟨10, 102, 11, 20⟩ []
      (by rfl)
  · exact (insert_shard_count_errors (insertQueryFix (.constE 5 false)) entryAppendFix
      (fun _ => shardsFix) 1 5).2.2 "customer_id"

/-- The validator pipeline on the single-assignment UPDATE fixture reduces
to the partition-value decision: everything up to `DmlChecks` passes. -/
theorem mqs_mkUpdate_step (e : PgExpr) (eqs : List (Nat × Int)) :
    ModifyQuerySupported (mkUpdateQuery 1 e eqs) false (mkCat 1) true =
      (match DmlChecks (mkUpdateQuery 1 e eqs) (some 1) with
       | .error er => some er
       | .ok spv => if spv then some partitionValueError else none) := rfl

/-- `DmlChecks` on the fixture UPDATE assigning a non-null constant:
accepted, with the partition-value flag decided by the WHERE equalities. -/
theorem dml_mkUpdate_const (v : Int) (eqs : List (Nat × Int)) :
    DmlChecks (mkUpdateQuery 1 (.constE v false) eqs) (some 1) =
      .ok (if (1, v) ∈ eqs then false else true) := by
  have htecv : TargetEntryChangesValue ⟨1, false, .constE v false⟩ 1 eqs =
      (if (1, v) ∈ eqs then false else true) := by
    show (if ((false : Bool) = false ∧ ((1 : Nat), v) ∈ eqs) then false else true) =
      (if (1, v) ∈ eqs then false else true)
    by_cases hmem : ((1 : Nat), v) ∈ eqs
    · rw [if_pos ⟨rfl, hmem⟩, if_pos hmem]
    · rw [if_neg (fun hc => hmem hc.2), if_neg hmem]
  have hct : CheckTargetList .update (some 1) eqs [⟨1, false, .constE v false⟩]
      false false false = .ok (if (1, v) ∈ eqs then false else true, false, false) := by
    simp only [CheckTargetList, htecv]
    by_cases hmem : ((1 : Nat), v) ∈ eqs
    · rw [if_pos hmem]
      rfl
    · rw [if_neg hmem]
      rfl
  show (match CheckTargetList .update (some 1) eqs [⟨1, false, .constE v false⟩]
      false false false with
    | Except.error er => (Except.error er : Except DeferredErrorMessage Bool)
    | Except.ok (spv, hva, hbc) =>
      DmlWhereChecks (mkUpdateQuery 1 (.constE v false) eqs) spv hva hbc) =
    .ok (if (1, v) ∈ eqs then false else true)
  rw [hct]
  rfl

/-- `DmlChecks` on the fixture UPDATE assigning the partition column to
itself: accepted with no partition-value flag. -/
theorem dml_mkUpdate_selfVar (eqs : List (Nat × Int)) :
    DmlChecks (mkUpdateQuery 1 (.varE 1) eqs) (some 1) = .ok false := rfl

/-- C4: holding all other validator rules satisfied (the single-assignment
UPDATE fixture), an UPDATE setting the partition column to a constant the
WHERE clause does not imply equal to its current value is rejected with
the partition-value `DeferredError`; setting the column to itself, or to
the constant the WHERE clause already equates it with, is accepted. -/
theorem partition_immutability (v : Int) (eqs : List (Nat × Int)) :
    ((1, v) ∉ eqs →
        ModifyQuerySupported (mkUpdateQuery 1 (.constE v false) eqs) false (mkCat 1) true =
          some partitionValueError) ∧
      ((1, v) ∈ eqs →
        ModifyQuerySupported (mkUpdateQuery 1 (.constE v false) eqs) false (mkCat 1) true =
          none) ∧
      ModifyQuerySupported (mkUpdateQuery 1 (.varE 1) eqs) false (mkCat 1) true = none := by
  refine ⟨?_, ?_, ?_⟩
  · intro hmem
    rw [mqs_mkUpdate_step, dml_mkUpdate_const, if_neg hmem]
    rfl
  · intro hmem
    rw [mqs_mkUpdate_step, dml_mkUpdate_const, if_pos hmem]
    rfl
  · rw [mqs_mkUpdate_step, dml_mkUpdate_selfVar]
    rfl

/-- Witness for C4: `SET col1 = 9` with `WHERE col1 = 5` is rejected,
with `WHERE col1 = 9` accepted, and `SET col1 = col1` accepted. -/
theorem partition_immutability_witness :
    ModifyQuerySupported (mkUpdateQuery 1 (.constE 9 false) [(1, 5)]) false (mkCat 1) true =
        some partitionValueError ∧
      ModifyQuerySupported (mkUpdateQuery 1 (.constE 9 false) [(1, 9)]) false (mkCat 1) true =
        none ∧
      ModifyQuerySupported (mkUpdateQuery 1 (.varE 1) [(1, 5)]) false (mkCat 1) true = none := by
  refine ⟨?_, ?_, ?_⟩
  · exact (partition_immutability 9 [(1, 5)]).1 (by decide)
  · exact (partition_immutability 9 [(1, 9)]).2.1 (by decide)
  · exact (partition_immutability 9 [(1, 5)]).2.2

mutual

/-- A tree with a VOLATILE function also has a non-IMMUTABLE function. -/
theorem volatile_imp_mutable :
    ∀ e : PgExpr, contain_volatile_functions e = true → contain_mutable_functions e = true
  | .varE _, h => by simp [contain_volatile_functions] at h
  | .constE _ _, h => by simp [contain_volatile_functions] at h
  | .funcE v args, h => by
    unfold contain_volatile_functions at h
    unfold contain_mutable_functions
    rcases Bool.or_eq_true_iff.mp h with h1 | h1
    · rw [decide_eq_true_eq] at h1
      subst h1
      rfl
    · rw [volatile_imp_mutable_list args h1, Bool.or_true]
  | .coalesceE args, h => volatile_imp_mutable_list args h
  | .caseE args, h => volatile_imp_mutable_list args h
  | .nodeE args, h => volatile_imp_mutable_list args h

/-- List form of `volatile_imp_mutable`. -/
theorem volatile_imp_mutable_list :
    ∀ l : List PgExpr, contain_volatile_list l = true → contain_mutable_list l = true
  | [], h => by simp [contain_volatile_list] at h
  | e :: es, h => by
    unfold contain_volatile_list at h
    unfold contain_mutable_list
    rcases Bool.or_eq_true_iff.mp h with h1 | h1
    · rw [volatile_imp_mutable e h1]
      rfl
    · rw [volatile_imp_mutable_list es h1, Bool.or_true]

end

/-- Optional-node form of `volatile_imp_mutable`. -/
theorem volatile_imp_mutable_opt (o : Option PgExpr)
    (h : contain_volatile_opt o = true) : contain_mutable_opt o = true := by
  cases o with
  | none => exact absurd h (by decide)
  | some e => exact volatile_imp_mutable e h

/-- A `none` result of `ModifyQuerySupported` means both the DML checks
and the ON CONFLICT checks passed. -/
theorem mqs_none_stages (q : QueryM) (ms : Bool) (cat : Catalog) (coord : Bool)
    (h : ModifyQuerySupported q ms cat coord = none) :
    ∃ spv, DmlChecks q (cat.partitionColumn (ExtractFirstDistributedTableId cat q)) =
        .ok spv ∧
      OnConflictChecks q (cat.partitionColumn (ExtractFirstDistributedTableId cat q)) spv =
        none := by
  unfold ModifyQuerySupported at h
  by_cases h1 : (q.hasSubLinks = true ∧ (UpdateOrDeleteQuery q = false ∨ ms = true))
  · rw [if_pos h1] at h; cases h
  · rw [if_neg h1] at h
    by_cases h2 : q.cteList ≠ []
    · rw [if_pos h2] at h; cases h
    · rw [if_neg h2] at h
      cases hscan : ScanRangeTableList cat coord (UpdateOrDeleteQuery q) ms q.rtable 0
          false with
      | error e => rw [hscan] at h; cases h
      | ok res =>
        rw [hscan] at h
        obtain ⟨cnt, hv⟩ := res
        replace h : (if (q.commandType ≠ .insert ∧ cnt ≠ 1) ∧
              (UpdateOrDeleteQuery q = false ∨ ms = true) then some joinModifyError
            else if hv = true then some multiRowInsertError
            else
              match DmlChecks q
                  (cat.partitionColumn (ExtractFirstDistributedTableId cat q)) with
              | Except.error e => some e
              | Except.ok spv =>
                OnConflictChecks q
                  (cat.partitionColumn (ExtractFirstDistributedTableId cat q)) spv) =
            none := h
        by_cases h3 : ((q.commandType ≠ .insert ∧ cnt ≠ 1) ∧
            (UpdateOrDeleteQuery q = false ∨ ms = true))
        · rw [if_pos h3] at h; cases h
        · rw [if_neg h3] at h
          by_cases h4 : hv = true
          · rw [if_pos h4] at h; cases h
          · rw [if_neg h4] at h
            cases hdml : DmlChecks q
                (cat.partitionColumn (ExtractFirstDistributedTableId cat q)) with
            | error e => rw [hdml] at h; cases h
            | ok spv =>
              rw [hdml] at h
              exact ⟨spv, rfl, h⟩

/-- A passing target-list loop saw no VOLATILE function in any non-resjunk
UPDATE SET expression. -/
theorem checkTargetList_ok_no_volatile (pc : Option Nat) (eqs : List (Nat × Int)) :
    ∀ (l : List TargetEntryM) (spv hva hbc : Bool) (r : Bool × Bool × Bool),
      CheckTargetList .update pc eqs l spv hva hbc = .ok r →
      ∀ te ∈ l, te.resjunk = false → contain_volatile_functions te.expr = false
  | [], _, _, _, _, _, te, hte, _ => absurd hte (List.not_mem_nil te)
  | t0 :: rest, spv, hva, hbc, r, h, te, hte, hrj => by
    unfold CheckTargetList at h
    by_cases hj : t0.resjunk = true
    · rw [if_pos hj] at h
      rcases List.mem_cons.mp hte with h1 | h1
      · subst h1
        rw [hj] at hrj
        cases hrj
      · exact checkTargetList_ok_no_volatile pc eqs rest _ _ _ r h te h1 hrj
    · rw [if_neg hj] at h
      by_cases hvc : (CmdType.update = CmdType.update ∧
          contain_volatile_functions t0.expr = true)
      · rw [if_pos hvc] at h
        cases h
      · rw [if_neg hvc] at h
        rcases List.mem_cons.mp hte with h1 | h1
        · subst h1
          cases hb : contain_volatile_functions te.expr with
          | false => rfl
          | true => exact absurd ⟨rfl, hb⟩ hvc
        · exact checkTargetList_ok_no_volatile pc eqs rest _ _ _ r h te h1 hrj

/-- A passing DML block passed its target-list loop and WHERE checks. -/
theorem dmlChecks_ok_whereStage (q : QueryM) (pc : Option Nat) (spv : Bool)
    (hmod : q.commandType = .insert ∨ q.commandType = .update ∨ q.commandType = .delete)
    (h : DmlChecks q pc = .ok spv) :
    ∃ s hva hbc, DmlWhereChecks q s hva hbc = .ok spv ∧
      CheckTargetList q.commandType pc q.whereEqualities q.targetList false false false =
        .ok (s, hva, hbc) := by
  unfold DmlChecks at h
  rw [if_pos hmod] at h
  cases hct : CheckTargetList q.commandType pc q.whereEqualities q.targetList
      false false false with
  | error e => rw [hct] at h; cases h
  | ok trip =>
    rw [hct] at h
    obtain ⟨s, hva, hbc⟩ := trip
    exact ⟨s, hva, hbc, h, rfl⟩

/-- Passing WHERE checks mean no VOLATILE function in the qualifiers. -/
theorem dmlWhereChecks_ok_no_volatile_quals (q : QueryM) (s hva hbc spv : Bool)
    (h : DmlWhereChecks q s hva hbc = .ok spv) :
    ∀ quals, q.whereQuals = some quals → contain_volatile_functions quals = false := by
  intro quals hq
  unfold DmlWhereChecks at h
  rw [hq] at h
  replace h : (if contain_volatile_functions quals = true then
      (Except.error whereVolatileError : Except DeferredErrorMessage Bool)
    else
      DmlChecksTail q s (MasterIrreducibleExpression quals hva hbc).2.1
        (MasterIrreducibleExpression quals hva hbc).2.2) = .ok spv := h
  by_cases hvq : contain_volatile_functions quals = true
  · rw [if_pos hvq] at h
    cases h
  · cases hb : contain_volatile_functions quals with
    | false => rfl
    | true => exact absurd hb hvq

/-- Passing WHERE checks reach the tail checks. -/
theorem dmlWhereChecks_ok_tail (q : QueryM) (s hva hbc spv : Bool)
    (h : DmlWhereChecks q s hva hbc = .ok spv) :
    ∃ s2 a b, DmlChecksTail q s2 a b = .ok spv := by
  unfold DmlWhereChecks at h
  cases hq : q.whereQuals with
  | none =>
    rw [hq] at h
    exact ⟨s, hva, hbc, h⟩
  | some quals =>
    rw [hq] at h
    replace h : (if contain_volatile_functions quals = true then
        (Except.error whereVolatileError : Except DeferredErrorMessage Bool)
      else
        DmlChecksTail q s (MasterIrreducibleExpression quals hva hbc).2.1
          (MasterIrreducibleExpression quals hva hbc).2.2) = .ok spv := h
    by_cases hvq : contain_volatile_functions quals = true
    · rw [if_pos hvq] at h
      cases h
    · rw [if_neg hvq] at h
      exact ⟨s, _, _, h⟩

/-- Passing tail checks mean a RETURNING list free of mutable functions. -/
theorem dmlChecksTail_ok_returning (q : QueryM) (s a b spv : Bool)
    (h : DmlChecksTail q s a b = .ok spv) :
    contain_mutable_list q.returningList = false := by
  unfold DmlChecksTail at h
  by_cases h1 : a = true
  · rw [if_pos h1] at h; cases h
  · rw [if_neg h1] at h
    by_cases h2 : b = true
    · rw [if_pos h2] at h; cases h
    · rw [if_neg h2] at h
      by_cases h3 : contain_mutable_list q.returningList = true
      · rw [if_pos h3] at h; cases h
      · cases hb : contain_mutable_list q.returningList with
        | false => rfl
        | true => exact absurd hb h3

/-- `b` is false when it is not true. -/
theorem bool_eq_false_of_not {b : Bool} (h : ¬b = true) : b = false := by
  cases b with
  | false => rfl
  | true => exact absurd rfl h

/-- Inversion of one step of the ON CONFLICT SET loop: a passing step
recurses with some flag; a non-partition entry must be free of mutable
functions and leaves the flag unchanged; a partition-column entry that is
not a plain column reference forces the flag to true. -/
theorem checkOnConflictSet_cons_inv (pc : Option Nat) (t0 : TargetEntryM)
    (rest : List TargetEntryM) (spv spv2 : Bool)
    (h : CheckOnConflictSet pc (t0 :: rest) spv = .ok spv2) :
    ∃ spv1, CheckOnConflictSet pc rest spv1 = .ok spv2 ∧
      ((∀ a, pc = some a → t0.resno ≠ a) →
        contain_mutable_functions t0.expr = false ∧ spv1 = spv) ∧
      (∀ a, pc = some a → t0.resno = a → (∀ v2, t0.expr ≠ .varE v2) → spv1 = true) := by
  unfold CheckOnConflictSet at h
  cases hpc : pc with
  | some a =>
    rw [hpc] at h
    replace h : (if t0.resno = a then
        match t0.expr with
        | PgExpr.varE newValueAttno =>
          if newValueAttno = a then CheckOnConflictSet (some a) rest false
          else CheckOnConflictSet (some a) rest true
        | _ => CheckOnConflictSet (some a) rest true
      else
        match t0.expr with
        | PgExpr.varE _ => CheckOnConflictSet (some a) rest spv
        | e =>
          if contain_mutable_functions e = true then
            (Except.error conflictSetMutableError : Except DeferredErrorMessage Bool)
          else CheckOnConflictSet (some a) rest spv) = Except.ok spv2 := h
    by_cases hres : t0.resno = a
    · rw [if_pos hres] at h
      cases hexpr : t0.expr with
      | varE v2 =>
        rw [hexpr] at h
        replace h : (if v2 = a then CheckOnConflictSet (some a) rest false
          else CheckOnConflictSet (some a) rest true) = Except.ok spv2 := h
        by_cases hv2 : v2 = a
        · rw [if_pos hv2] at h
          exact ⟨false, h, fun hnp => absurd hres (hnp a rfl),
            fun a' ha' _ hnv => absurd rfl (hnv v2)⟩
        · rw [if_neg hv2] at h
          exact ⟨true, h, fun hnp => absurd hres (hnp a rfl), fun _ _ _ _ => rfl⟩
      | constE cv cn =>
        rw [hexpr] at h
        replace h : CheckOnConflictSet (some a) rest true = Except.ok spv2 := h
        exact ⟨true, h, fun hnp => absurd hres (hnp a rfl), fun _ _ _ _ => rfl⟩
      | funcE v args =>
        rw [hexpr] at h
        replace h : CheckOnConflictSet (some a) rest true = Except.ok spv2 := h
        exact ⟨true, h, fun hnp => absurd hres (hnp a rfl), fun _ _ _ _ => rfl⟩
      | coalesceE args =>
        rw [hexpr] at h
        replace h : CheckOnConflictSet (some a) rest true = Except.ok spv2 := h
        exact ⟨true, h, fun hnp => absurd hres (hnp a rfl), fun _ _ _ _ => rfl⟩
      | caseE args =>
        rw [hexpr] at h
        replace h : CheckOnConflictSet (some a) rest true = Except.ok spv2 := h
        exact ⟨true, h, fun hnp => absurd hres (hnp a rfl), fun _ _ _ _ => rfl⟩
      | nodeE args =>
        rw [hexpr] at h
        replace h : CheckOnConflictSet (some a) rest true = Except.ok spv2 := h
        exact ⟨true, h, fun hnp => absurd hres (hnp a rfl), fun _ _ _ _ => rfl⟩
    · rw [if_neg hres] at h
      cases hexpr : t0.expr with
      | varE v2 =>
        rw [hexpr] at h
        replace h : CheckOnConflictSet (some a) rest spv = Except.ok spv2 := h
        exact ⟨spv, h, fun _ => ⟨rfl, rfl⟩,
          fun a' ha' hres' _ => absurd hres' (Option.some.inj ha' ▸ hres)⟩
      | constE cv cn =>
        rw [hexpr] at h
        replace h : (if contain_mutable_functions (PgExpr.constE cv cn) = true then
            (Except.error conflictSetMutableError : Except DeferredErrorMessage Bool)
          else CheckOnConflictSet (some a) rest spv) = Except.ok spv2 := h
        by_cases hmut : contain_mutable_functions (PgExpr.constE cv cn) = true
        · rw [if_pos hmut] at h
          cases h
        · rw [if_neg hmut] at h
          exact ⟨spv, h, fun _ => ⟨bool_eq_false_of_not hmut, rfl⟩, fun a' ha' hres' _ => absurd hres' (Option.some.inj ha' ▸ hres)⟩
      | funcE v args =>
        rw [hexpr] at h
        replace h : (if contain_mutable_functions (PgExpr.funcE v args) = true then
            (Except.error conflictSetMutableError : Except DeferredErrorMessage Bool)
          else CheckOnConflictSet (some a) rest spv) = Except.ok spv2 := h
        by_cases hmut : contain_mutable_functions (PgExpr.funcE v args) = true
        · rw [if_pos hmut] at h
          cases h
        · rw [if_neg hmut] at h
          exact ⟨spv, h, fun _ => ⟨bool_eq_false_of_not hmut, rfl⟩, fun a' ha' hres' _ => absurd hres' (Option.some.inj ha' ▸ hres)⟩
      | coalesceE args =>
        rw [hexpr] at h
        replace h : (if contain_mutable_functions (PgExpr.coalesceE args) = true then
            (Except.error conflictSetMutableError : Except DeferredErrorMessage Bool)
          else CheckOnConflictSet (some a) rest spv) = Except.ok spv2 := h
        by_cases hmut : contain_mutable_functions (PgExpr.coalesceE args) = true
        · rw [if_pos hmut] at h
          cases h
        · rw [if_neg hmut] at h
          exact ⟨spv, h, fun _ => ⟨bool_eq_false_of_not hmut, rfl⟩, fun a' ha' hres' _ => absurd hres' (Option.some.inj ha' ▸ hres)⟩
      | caseE args =>
        rw [hexpr] at h
        replace h : (if contain_mutable_functions (PgExpr.caseE args) = true then
            (Except.error conflictSetMutableError : Except DeferredErrorMessage Bool)
          else CheckOnConflictSet (some a) rest spv) = Except.ok spv2 := h
        by_cases hmut : contain_mutable_functions (PgExpr.caseE args) = true
        · rw [if_pos hmut] at h
          cases h
        · rw [if_neg hmut] at h
          exact ⟨spv, h, fun _ => ⟨bool_eq_false_of_not hmut, rfl⟩, fun a' ha' hres' _ => absurd hres' (Option.some.inj ha' ▸ hres)⟩
      | nodeE args =>
        rw [hexpr] at h
        replace h : (if contain_mutable_functions (PgExpr.nodeE args) = true then
            (Except.error conflictSetMutableError : Except DeferredErrorMessage Bool)
          else CheckOnConflictSet (some a) rest spv) = Except.ok spv2 := h
        by_cases hmut : contain_mutable_functions (PgExpr.nodeE args) = true
        · rw [if_pos hmut] at h
          cases h
        · rw [if_neg hmut] at h
          exact ⟨spv, h, fun _ => ⟨bool_eq_false_of_not hmut, rfl⟩, fun a' ha' hres' _ => absurd hres' (Option.some.inj ha' ▸ hres)⟩
  | none =>
    rw [hpc] at h
    replace h : (match t0.expr with
      | PgExpr.varE _ => CheckOnConflictSet none rest spv
      | e =>
        if contain_mutable_functions e = true then
          (Except.error conflictSetMutableError : Except DeferredErrorMessage Bool)
        else CheckOnConflictSet none rest spv) = Except.ok spv2 := h
    cases hexpr : t0.expr with
    | varE v2 =>
      rw [hexpr] at h
      replace h : CheckOnConflictSet none rest spv = Except.ok spv2 := h
      exact ⟨spv, h, fun _ => ⟨rfl, rfl⟩, fun a' ha' => Option.noConfusion ha'⟩
    | constE cv cn =>
      rw [hexpr] at h
      replace h : (if contain_mutable_functions (PgExpr.constE cv cn) = true then
        (Except.error conflictSetMutableError : Except DeferredErrorMessage Bool)
        else CheckOnConflictSet none rest spv) = Except.ok spv2 := h
      by_cases hmut : contain_mutable_functions (PgExpr.constE cv cn) = true
      · rw [if_pos hmut] at h
        cases h
      · rw [if_neg hmut] at h
        exact ⟨spv, h, fun _ => ⟨bool_eq_false_of_not hmut, rfl⟩, fun a' ha' => Option.noConfusion ha'⟩
    | funcE v args =>
      rw [hexpr] at h
      replace h : (if contain_mutable_functions (PgExpr.funcE v args) = true then
        (Except.error conflictSetMutableError : Except DeferredErrorMessage Bool)
        else CheckOnConflictSet none rest spv) = Except.ok spv2 := h
      by_cases hmut : contain_mutable_functions (PgExpr.funcE v args) = true
      · rw [if_pos hmut] at h
        cases h
      · rw [if_neg hmut] at h
        exact ⟨spv, h, fun _ => ⟨bool_eq_false_of_not hmut, rfl⟩, fun a' ha' => Option.noConfusion ha'⟩
    | coalesceE args =>
      rw [hexpr] at h
      replace h : (if contain_mutable_functions (PgExpr.coalesceE args) = true then
        (Except.error conflictSetMutableError : Except DeferredErrorMessage Bool)
        else CheckOnConflictSet none rest spv) = Except.ok spv2 := h
      by_cases hmut : contain_mutable_functions (PgExpr.coalesceE args) = true
      · rw [if_pos hmut] at h
        cases h
      · rw [if_neg hmut] at h
        exact ⟨spv, h, fun _ => ⟨bool_eq_false_of_not hmut, rfl⟩, fun a' ha' => Option.noConfusion ha'⟩
    | caseE args =>
      rw [hexpr] at h
      replace h : (if contain_mutable_functions (PgExpr.caseE args) = true then
        (Except.error conflictSetMutableError : Except DeferredErrorMessage Bool)
        else CheckOnConflictSet none rest spv) = Except.ok spv2 := h
      by_cases hmut : contain_mutable_functions (PgExpr.caseE args) = true
      · rw [if_pos hmut] at h
        cases h
      · rw [if_neg hmut] at h
        exact ⟨spv, h, fun _ => ⟨bool_eq_false_of_not hmut, rfl⟩, fun a' ha' => Option.noConfusion ha'⟩
    | nodeE args =>
      rw [hexpr] at h
      replace h : (if contain_mutable_functions (PgExpr.nodeE args) = true then
        (Except.error conflictSetMutableError : Except DeferredErrorMessage Bool)
        else CheckOnConflictSet none rest spv) = Except.ok spv2 := h
      by_cases hmut : contain_mutable_functions (PgExpr.nodeE args) = true
      · rw [if_pos hmut] at h
        cases h
      · rw [if_neg hmut] at h
        exact ⟨spv, h, fun _ => ⟨bool_eq_false_of_not hmut, rfl⟩, fun a' ha' => Option.noConfusion ha'⟩

/-- A passing ON CONFLICT SET loop with no partition-column entry leaves
the `specifiesPartitionValue` flag unchanged. -/
theorem checkOnConflictSet_ok_preserve (a : Nat) :
    ∀ (l : List TargetEntryM) (spv spv2 : Bool),
      (∀ te ∈ l, te.resno ≠ a) →
      CheckOnConflictSet (some a) l spv = .ok spv2 → spv2 = spv
  | [], spv, spv2, _, h => by
    cases h
    rfl
  | t0 :: rest, spv, spv2, hnp, h => by
    rcases checkOnConflictSet_cons_inv (some a) t0 rest spv spv2 h with ⟨spv1, hrec, hnon, _⟩
    have h0 := hnon fun a' ha' => by
      cases ha'
      exact hnp t0 (List.mem_cons_self _ _)
    have h1 := checkOnConflictSet_ok_preserve a rest spv1 spv2
      (fun te hte => hnp te (List.mem_cons_of_mem _ hte)) hrec
    rw [h1, h0.2]

/-- A passing ON CONFLICT SET loop that saw a partition-column entry which
is not a plain column reference ends with the flag set (given distinct
result numbers in the SET list, as `expand_targetlist` produces). -/
theorem checkOnConflictSet_ok_part_true (a : Nat) :
    ∀ (l : List TargetEntryM) (spv spv2 : Bool) (te : TargetEntryM),
      te ∈ l → te.resno = a → (∀ v2, te.expr ≠ .varE v2) →
      l.Pairwise (fun x y => x.resno ≠ y.resno) →
      CheckOnConflictSet (some a) l spv = .ok spv2 → spv2 = true
  | [], _, _, te, hte, _, _, _, _ => absurd hte (List.not_mem_nil te)
  | t0 :: rest, spv, spv2, te, hte, hres, hnv, hpw, h => by
    rcases checkOnConflictSet_cons_inv (some a) t0 rest spv spv2 h with ⟨spv1, hrec, _, hpart⟩
    rcases List.mem_cons.mp hte with h1 | h1
    · subst h1
      have hs1 : spv1 = true := hpart a rfl hres hnv
      subst hs1
      have hhead := (List.pairwise_cons.mp hpw).1
      refine checkOnConflictSet_ok_preserve a rest true spv2 ?_ hrec
      intro te2 hte2 hc
      exact hhead te2 hte2 (by rw [hres, hc])
    · exact checkOnConflictSet_ok_part_true a rest spv1 spv2 te h1 hres hnv
        (List.pairwise_cons.mp hpw).2 hrec

/-- A passing ON CONFLICT SET loop saw no mutable function in any
non-partition-column entry. -/
theorem checkOnConflictSet_ok_nonpart_mutable (pc : Option Nat) :
    ∀ (l : List TargetEntryM) (spv spv2 : Bool),
      CheckOnConflictSet pc l spv = .ok spv2 →
      ∀ te ∈ l, (∀ a, pc = some a → te.resno ≠ a) →
        contain_mutable_functions te.expr = false
  | [], _, _, _, te, hte, _ => absurd hte (List.not_mem_nil te)
  | t0 :: rest, spv, spv2, h, te, hte, hnp => by
    rcases checkOnConflictSet_cons_inv pc t0 rest spv spv2 h with ⟨spv1, hrec, hnon, _⟩
    rcases List.mem_cons.mp hte with h1 | h1
    · subst h1
      exact (hnon hnp).1
    · exact checkOnConflictSet_ok_nonpart_mutable pc rest spv1 spv2 hrec te h1 hnp

/-- A passing ON CONFLICT block of an INSERT with a conflict clause passed
its SET loop with a cleared flag and has immutable arbiter/filter
predicates. -/
theorem onConflictChecks_none_facts (q : QueryM) (pc : Option Nat) (spv : Bool)
    (oc : OnConflictM) (hcmd : q.commandType = .insert) (hoc : q.onConflict = some oc)
    (h : OnConflictChecks q pc spv = none) :
    ∃ spv2, CheckOnConflictSet pc oc.onConflictSet spv = .ok spv2 ∧ spv2 = false ∧
      contain_mutable_opt oc.arbiterWhere = false ∧
      contain_mutable_opt oc.onConflictWhere = false := by
  unfold OnConflictChecks at h
  rw [hcmd, hoc] at h
  replace h : (match CheckOnConflictSet pc oc.onConflictSet spv with
    | Except.error e => some e
    | Except.ok spv2 =>
      if contain_mutable_opt oc.arbiterWhere || contain_mutable_opt oc.onConflictWhere then
        some conflictWhereMutableError
      else if spv2 = true then some partitionValueError
      else none) = none := h
  cases hcs : CheckOnConflictSet pc oc.onConflictSet spv with
  | error e =>
    rw [hcs] at h
    cases h
  | ok spv2 =>
    rw [hcs] at h
    replace h : (if contain_mutable_opt oc.arbiterWhere ||
          contain_mutable_opt oc.onConflictWhere then some conflictWhereMutableError
        else if spv2 = true then some partitionValueError
        else none) = none := h
    by_cases hmut : (contain_mutable_opt oc.arbiterWhere ||
        contain_mutable_opt oc.onConflictWhere) = true
    · rw [if_pos hmut] at h
      cases h
    · rw [if_neg hmut] at h
      by_cases hspv : spv2 = true
      · rw [if_pos hspv] at h
        cases h
      · have harb : contain_mutable_opt oc.arbiterWhere = false := by
          cases hx : contain_mutable_opt oc.arbiterWhere with
          | false => rfl
          | true => exact absurd (by rw [hx]; rfl) hmut
        have hocw : contain_mutable_opt oc.onConflictWhere = false := by
          cases hx : contain_mutable_opt oc.onConflictWhere with
          | false => rfl
          | true =>
            refine absurd ?_ hmut
            rw [hx, Bool.or_true]
        exact ⟨spv2, rfl, bool_eq_false_of_not hspv, harb, hocw⟩

/-- C7: `ModifyQuerySupported` rejects (returns a `DeferredErrorMessage`)
whenever a VOLATILE function appears in an UPDATE's SET list, in the WHERE
clause of any modification, in the RETURNING list, in the ON CONFLICT SET
list, or in the conflict arbiter/filter predicates; and the five
rejections carry pairwise distinct `DeferredErrorMessage`s. -/
theorem modify_validator_volatile_rejections (q : QueryM) (ms : Bool) (cat : Catalog)
    (coord : Bool) :
    ((q.commandType = .update →
        ∀ te ∈ q.targetList, te.resjunk = false →
          contain_volatile_functions te.expr = true →
          (ModifyQuerySupported q ms cat coord).isSome = true) ∧
      ((q.commandType = .insert ∨ q.commandType = .update ∨ q.commandType = .delete) →
        ∀ quals, q.whereQuals = some quals → contain_volatile_functions quals = true →
          (ModifyQuerySupported q ms cat coord).isSome = true) ∧
      ((q.commandType = .insert ∨ q.commandType = .update ∨ q.commandType = .delete) →
        contain_volatile_list q.returningList = true →
          (ModifyQuerySupported q ms cat coord).isSome = true) ∧
      (q.commandType = .insert →
        ∀ oc, q.onConflict = some oc →
          oc.onConflictSet.Pairwise (fun x y => x.resno ≠ y.resno) →
          ∀ te ∈ oc.onConflictSet, contain_volatile_functions te.expr = true →
            (ModifyQuerySupported q ms cat coord).isSome = true) ∧
      (q.commandType = .insert →
        ∀ oc, q.onConflict = some oc →
          (contain_volatile_opt oc.arbiterWhere = true ∨
            contain_volatile_opt oc.onConflictWhere = true) →
          (ModifyQuerySupported q ms cat coord).isSome = true)) ∧
      [updateSetVolatileError, whereVolatileError, returningMutableError,
        conflictSetMutableError, conflictWhereMutableError].Pairwise (· ≠ ·) := by
  refine ⟨⟨?_, ?_, ?_, ?_, ?_⟩, by decide⟩
  · intro hcmd te hte hrj hvol
    cases hm : ModifyQuerySupported q ms cat coord with
    | some e => rfl
    | none =>
      exfalso
      rcases mqs_none_stages q ms cat coord hm with ⟨spv, hdml, _⟩
      rcases dmlChecks_ok_whereStage q _ spv (Or.inr (Or.inl hcmd)) hdml with
        ⟨s, hva, hbc, _, hct⟩
      rw [hcmd] at hct
      have hnv := checkTargetList_ok_no_volatile _ q.whereEqualities q.targetList
        false false false (s, hva, hbc) hct te hte hrj
      rw [hnv] at hvol
      cases hvol
  · intro hmod quals hq hvol
    cases hm : ModifyQuerySupported q ms cat coord with
    | some e => rfl
    | none =>
      exfalso
      rcases mqs_none_stages q ms cat coord hm with ⟨spv, hdml, _⟩
      rcases dmlChecks_ok_whereStage q _ spv hmod hdml with ⟨s, hva, hbc, hwh, _⟩
      have hnv := dmlWhereChecks_ok_no_volatile_quals q s hva hbc spv hwh quals hq
      rw [hnv] at hvol
      cases hvol
  · intro hmod hvol
    cases hm : ModifyQuerySupported q ms cat coord with
    | some e => rfl
    | none =>
      exfalso
      rcases mqs_none_stages q ms cat coord hm with ⟨spv, hdml, _⟩
      rcases dmlChecks_ok_whereStage q _ spv hmod hdml with ⟨s, hva, hbc, hwh, _⟩
      rcases dmlWhereChecks_ok_tail q s hva hbc spv hwh with ⟨s2, a2, b2, htail⟩
      have hret := dmlChecksTail_ok_returning q s2 a2 b2 spv htail
      rw [volatile_imp_mutable_list q.returningList hvol] at hret
      cases hret
  · intro hcmd oc hoc hpw te hte hvol
    cases hm : ModifyQuerySupported q ms cat coord with
    | some e => rfl
    | none =>
      exfalso
      rcases mqs_none_stages q ms cat coord hm with ⟨spv, _, hocc⟩
      rcases onConflictChecks_none_facts q _ spv oc hcmd hoc hocc with
        ⟨spv2, hcs, hspv2, _, _⟩
      have hnvar : ∀ v2, te.expr ≠ .varE v2 := by
        intro v2 hvv
        rw [hvv] at hvol
        exact absurd hvol (by simp [contain_volatile_functions])
      cases hpc : cat.partitionColumn (ExtractFirstDistributedTableId cat q) with
      | none =>
        rw [hpc] at hcs
        have hmut := checkOnConflictSet_ok_nonpart_mutable none oc.onConflictSet spv spv2
          hcs te hte (fun a ha => Option.noConfusion ha)
        rw [volatile_imp_mutable te.expr hvol] at hmut
        cases hmut
      | some a =>
        rw [hpc] at hcs
        by_cases hres : te.resno = a
        · have := checkOnConflictSet_ok_part_true a oc.onConflictSet spv spv2 te hte hres
            hnvar hpw hcs
          rw [this] at hspv2
          cases hspv2
        · have hmut := checkOnConflictSet_ok_nonpart_mutable (some a) oc.onConflictSet spv
            spv2 hcs te hte (fun a' ha' => Option.some.inj ha' ▸ hres)
          rw [volatile_imp_mutable te.expr hvol] at hmut
          cases hmut
  · intro hcmd oc hoc hvol
    cases hm : ModifyQuerySupported q ms cat coord with
    | some e => rfl
    | none =>
      exfalso
      rcases mqs_none_stages q ms cat coord hm with ⟨spv, _, hocc⟩
      rcases onConflictChecks_none_facts q _ spv oc hcmd hoc hocc with
        ⟨spv2, _, _, harb, hocw⟩
      rcases hvol with hv | hv
      · rw [volatile_imp_mutable_opt _ hv] at harb
        cases harb
      · rw [volatile_imp_mutable_opt _ hv] at hocw
        cases hocw

/-- Witness for C7: five concrete modifications, one per volatile
position, are all rejected. -/
theorem modify_validator_volatile_rejections_witness :
    (ModifyQuerySupported (mkUpdateQuery 1 (.funcE .volatileV []) []) false (mkCat 1)
        true).isSome = true ∧
      (ModifyQuerySupported
        ⟨.delete, false, [], [rteUpdateFix], [], some (.funcE .volatileV []), [], [], none,
          false⟩ false (mkCat 1) true).isSome = true ∧
      (ModifyQuerySupported
        ⟨.update, false, [], [rteUpdateFix], [], none, [], [.funcE .volatileV []], none,
          false⟩ false (mkCat 1) true).isSome = true ∧
      (ModifyQuerySupported
        ⟨.insert, false, [], [rteSelectFix], [],
          none, [], [], some ⟨[⟨2, false, .funcE .volatileV []⟩], none, none⟩, false⟩
        false (mkCat 1) true).isSome = true ∧
      (ModifyQuerySupported
        ⟨.insert, false, [], [rteSelectFix], [],
          none, [], [], some ⟨[], some (.funcE .volatileV []), none⟩, false⟩
        false (mkCat 1) true).isSome = true := by
  refine ⟨?_, ?_, ?_, ?_, ?_⟩
  · exact (modify_validator_volatile_rejections (mkUpdateQuery 1 (.funcE .volatileV []) [])
      false (mkCat 1) true).1.1 rfl ⟨1, false, .funcE .volatileV []⟩
      (List.mem_singleton.mpr rfl) rfl rfl
  · exact (modify_validator_volatile_rejections _ false (mkCat 1) true).1.2.1
      (Or.inr (Or.inr rfl)) (.funcE .volatileV []) rfl rfl
  · exact (modify_validator_volatile_rejections _ false (mkCat 1) true).1.2.2.1
      (Or.inr (Or.inl rfl)) rfl
  · exact (modify_validator_volatile_rejections _ false (mkCat 1) true).1.2.2.2.1 rfl
      ⟨[⟨2, false, .funcE .volatileV []⟩], none, none⟩ rfl (by simp)
      ⟨2, false, .funcE .volatileV []⟩ (List.mem_singleton.mpr rfl) rfl
  · exact (modify_validator_volatile_rejections _ false (mkCat 1) true).1.2.2.2.2 rfl
      ⟨[], some (.funcE .volatileV []), none⟩ rfl (Or.inl rfl)

/-- Helper: after a literal contradiction every relation contributes the
empty pruned list. -/
theorem targetShardIntervals_allFalse :
    ∀ rs : List RelationRestriction, (∀ rr ∈ rs, rr.containsFalseClause = true) →
      TargetShardIntervalsForRouter rs = some (rs.map fun _ => ([] : List ShardInterval))
  | [], _ => rfl
  | rr :: rest, h => by
    have hp : PrunedForRestriction rr = [] := by
      unfold PrunedForRestriction
      rw [if_neg]
      rintro ⟨hf, _⟩
      rw [h rr (List.mem_cons_self _ _)] at hf
      cases hf
    unfold TargetShardIntervalsForRouter
    rw [hp, if_neg (by simp)]
    rw [targetShardIntervals_allFalse rest fun r hr => h r (List.mem_cons_of_mem _ hr)]
    rfl

/-- Helper: all-empty pruned lists give an empty relation-shard mapping. -/
theorem prunedRelationShards_allNil :
    ∀ rs : List RelationRestriction,
      PrunedRelationShards (rs.map fun _ => ([] : List ShardInterval)) = []
  | [] => rfl
  | _ :: rest => prunedRelationShards_allNil rest

/-- Helper: all-empty pruned lists leave no shard present. -/
theorem anyNonNil_allNil :
    ∀ rs : List RelationRestriction,
      ((rs.map fun _ => ([] : List ShardInterval)).any fun l => decide (l ≠ [])) = false
  | [] => rfl
  | _ :: rest => anyNonNil_allNil rest

/-- Helper: all-empty pruned lists give no anchor shard. -/
theorem firstAnchor_allNil :
    ∀ rs : List RelationRestriction,
      FirstAnchorShardId (rs.map fun _ => ([] : List ShardInterval)) = none
  | [] => rfl
  | _ :: rest => firstAnchor_allNil rest

/-- C8 fails as stated: for the contradiction UPDATE fixture the placement
resolver does substitute the placeholder placement on the active worker,
but the resulting Job carries an empty task list — no Task at all, rather
than one Task affecting zero rows. -/
theorem contradiction_update_counterexample :
    PlanRouterQuery updateContradictionFix [restrictionFalseUpdateFix] (fun _ => [])
        [workerFix] true false catFix =
      .ok ⟨[DummyShardPlacement workerFix], none, [],
        [⟨.subquery, 10, .ordinaryTable, true, false⟩]⟩ ∧
      RouterJob updateContradictionFix [restrictionFalseUpdateFix] (fun _ => [])
        [workerFix] false catFix = .ok ⟨[], false, false⟩ := ⟨rfl, rfl⟩

/-- C8 (amended): an UPDATE whose WHERE clause is a literal contradiction
prunes all shards; the placement resolver substitutes a placeholder
placement on the first active worker, the target's relation range table
entry is rewritten to an empty-result subquery, and the resulting Job
contains no Task (the task list is empty), so nothing is dispatched. -/
theorem contradiction_update_placeholder_no_task (rs : List RelationRestriction)
    (finp : Nat → List ShardPlacement) (w : WorkerNode) (ws : List WorkerNode)
    (cat : Catalog) (hall : ∀ rr ∈ rs, rr.containsFalseClause = true) :
    PlanRouterQuery updateContradictionFix rs finp (w :: ws) true false cat =
        .ok ⟨[DummyShardPlacement w], none, [],
          [⟨.subquery, 10, .ordinaryTable, true, false⟩]⟩ ∧
      RouterJob updateContradictionFix rs finp (w :: ws) false cat =
        .ok ⟨[], false, false⟩ := by
  have h1 : PlanRouterQuery updateContradictionFix rs finp (w :: ws) true false cat =
      .ok ⟨[DummyShardPlacement w], none, [],
        [⟨.subquery, 10, .ordinaryTable, true, false⟩]⟩ := by
    unfold PlanRouterQuery
    rw [targetShardIntervals_allFalse rs hall]
    simp only []
    rw [prunedRelationShards_allNil, anyNonNil_allNil, firstAnchor_allNil]
    rfl
  refine ⟨h1, ?_⟩
  unfold RouterJob
  rw [h1]
  rfl

/-- Witness for C8 (amended): the concrete contradiction fixture. -/
theorem contradiction_update_placeholder_no_task_witness :
    PlanRouterQuery updateContradictionFix [restrictionFalseUpdateFix] (fun _ => [])
        [⟨"worker9", 5440, 3⟩] true false catFix =
      .ok ⟨[DummyShardPlacement ⟨"worker9", 5440, 3⟩], none, [],
        [⟨.subquery, 10, .ordinaryTable, true, false⟩]⟩ ∧
      RouterJob updateContradictionFix [restrictionFalseUpdateFix] (fun _ => [])
        [⟨"worker9", 5440, 3⟩] false catFix = .ok ⟨[], false, false⟩ := by
  exact contradiction_update_placeholder_no_task [restrictionFalseUpdateFix] (fun _ => [])
    ⟨"worker9", 5440, 3⟩ [] catFix
    (by
      intro rr hrr
      rcases List.mem_singleton.mp hrr with h
      rw [h]
      rfl)

/-- C9 fails as stated: a SELECT whose table reference was rewritten to a
zero-row subquery (all shards pruned) does not short-circuit to an empty
task list — exactly one read Task is emitted, carrying the placeholder
(dummy) placement. -/
theorem select_pruned_counterexample :
    RouterJob selectContradictionFix [restrictionFalseSelectFix] (fun _ => [])
        [workerFix] false catFix =
      .ok ⟨[⟨.routerTask, none, [DummyShardPlacement workerFix], [], false⟩], false,
        false⟩ ∧
      ([⟨TaskType.routerTask, none, [DummyShardPlacement workerFix], [], false⟩] :
        List Task).length ≠ 0 := ⟨rfl, by decide⟩

/-- Helper: the rewritten single read-only range table entry never looks
like an UPDATE/DELETE target. -/
theorem getUpdateOrDeleteRTE_selectFix (l : List RelationShard) :
    GetUpdateOrDeleteRTE (UpdateRelationToShardNames [rteSelectFix] l) = none := by
  unfold UpdateRelationToShardNames GetUpdateOrDeleteRTE
  simp only [List.map]
  by_cases hc : (rteSelectFix.rtekind = .relation ∧
      (l.all fun rs => decide (rs.relationId ≠ rteSelectFix.relid)) = true)
  · rw [if_pos hc]
    rfl
  · rw [if_neg hc]
    rfl

/-- C9 (amended): the plan assembler never short-circuits a read
statement: when every shard is pruned away it emits exactly one read Task
carrying the placeholder (dummy) placement; when shards are present it
emits exactly one read Task with the resolved placement list.  (The
empty-task-list short-circuit applies instead to UPDATE/DELETE statements
whose target was rewritten to a zero-row subquery.) -/
theorem select_task_assembly (rs : List RelationRestriction)
    (finp : Nat → List ShardPlacement) (w : WorkerNode) (ws : List WorkerNode)
    (cat : Catalog) (rme : Bool) :
    ((∀ rr ∈ rs, rr.containsFalseClause = true) →
        RouterJob selectContradictionFix rs finp (w :: ws) rme cat =
          .ok ⟨[⟨.routerTask, none, [DummyShardPlacement w], [], false⟩], rme, false⟩) ∧
      (∀ lss, TargetShardIntervalsForRouter rs = some lss →
        (lss.any fun l => decide (l ≠ [])) = true →
        RelationPrunesToMultipleShards (PrunedRelationShards lss) = false →
        WorkersContainingAllShards finp lss ≠ [] →
        RouterJob selectContradictionFix rs finp (w :: ws) rme cat =
          .ok ⟨[⟨.routerTask, FirstAnchorShardId lss,
            WorkersContainingAllShards finp lss, PrunedRelationShards lss, false⟩], rme,
            false⟩) := by
  constructor
  · intro hall
    have h1 : PlanRouterQuery selectContradictionFix rs finp (w :: ws) true rme cat =
        .ok ⟨[DummyShardPlacement w], none, [],
          [⟨.subquery, 10, .ordinaryTable, false, false⟩]⟩ := by
      unfold PlanRouterQuery
      rw [targetShardIntervals_allFalse rs hall]
      simp only []
      rw [prunedRelationShards_allNil, anyNonNil_allNil, firstAnchor_allNil]
      rfl
    unfold RouterJob
    rw [h1]
    rfl
  · intro lss hlss hne hrp hw
    have h1 : PlanRouterQuery selectContradictionFix rs finp (w :: ws) true rme cat =
        .ok ⟨WorkersContainingAllShards finp lss, FirstAnchorShardId lss,
          PrunedRelationShards lss,
          UpdateRelationToShardNames [rteSelectFix] (PrunedRelationShards lss)⟩ := by
      unfold PlanRouterQuery
      rw [hlss]
      simp only []
      rw [if_neg (by rw [hrp]; exact Bool.false_ne_true), if_pos hne, if_neg hw]
      rfl
    unfold RouterJob
    rw [h1]
    simp only []
    rw [getUpdateOrDeleteRTE_selectFix]
    rfl

/-- Witness for C9 (amended): the concrete contradiction SELECT fixture
emits one dummy-placement read task, and a single-shard SELECT emits one
read task with that shard's placements. -/
theorem select_task_assembly_witness :
    RouterJob selectContradictionFix [restrictionFalseSelectFix] (fun _ => [])
        [workerFix] false catFix =
      .ok ⟨[⟨.routerTask, none, [DummyShardPlacement workerFix], [], false⟩], false,
        false⟩ ∧
      RouterJob selectContradictionFix [⟨10, 1, 2, false, [⟨10, 101, 0, 10⟩], rteSelectFix⟩]
        (fun _ => [⟨"worker1", 5432, 1⟩]) [workerFix] false catFix =
      .ok ⟨[⟨.routerTask, some 101, [⟨"worker1", 5432, 1⟩], [⟨10, 101⟩], false⟩], false,
        false⟩ := by
  constructor
  · exact (select_task_assembly [restrictionFalseSelectFix] (fun _ => []) workerFix []
      catFix false).1 (by intro rr hrr; rcases List.mem_singleton.mp hrr with h; rw [h]; rfl)
  · have h := (select_task_assembly [⟨10, 1, 2, false, [⟨10, 101, 0, 10⟩], rteSelectFix⟩]
      (fun _ => [⟨"worker1", 5432, 1⟩]) workerFix [] catFix false).2
      [[⟨10, 101, 0, 10⟩]] (by rfl) (by rfl) (by rfl) (by decide)
    exact h

end RouterPlanner
